import Mathlib

/-!
Verification development for the gbc_ce_site repository: a shallow embedding of
the schedule-extraction and reconciliation pipeline (scraper/src/scrape.py,
scraper/src/utils.py, scraper/src/cerebras_extract_dates.py,
scraper/src/cohere_extract_dates.py, scraper/db/load_data.py,
scraper/db/compare_data.py, python_scrape/scrape.py), with theorems settling
the testable properties stated in the specification.

Python strings are modelled as `List Char` (`PyStr`); Python `None`-able values
as `Option`; Python sets of strings as duplicate-free lists built by
membership-checked insertion; file contents at the JSON-value level where noted.
-/

namespace GbcCe

/-- Python strings, modelled as lists of unicode scalar characters. -/
abbrev PyStr := List Char

/-- Turn a Lean string literal into the Python-string model. -/
def lit (s : String) : PyStr := s.data

/-- The ASCII whitespace characters recognised by Python's `str.strip()`
(Python also strips further Unicode whitespace; inputs in this development are
restricted to characters where this fragment agrees with Python). -/
def pyWs (c : Char) : Bool :=
  c = ' ' || c = '\t' || c = '\n' || c = '\r' || c = '\x0b' || c = '\x0c'

/-- Right-strip: drop trailing whitespace. -/
def pyStripR (l : PyStr) : PyStr := (l.reverse.dropWhile pyWs).reverse

/-- Python `str.strip()` with no argument: drop leading and trailing whitespace. -/
def pyStrip (l : PyStr) : PyStr := pyStripR (l.dropWhile pyWs)

/-- Whether `pat` is a prefix of `l` (plain boolean check on char lists). -/
def startsWith : PyStr → PyStr → Bool
  | [], _ => true
  | _ :: _, [] => false
  | p :: ps, c :: cs => p = c && startsWith ps cs

/-- Python `needle in hay` on strings: substring containment. -/
def containsSub (needle : PyStr) : PyStr → Bool
  | [] => needle.isEmpty
  | c :: cs => startsWith needle (c :: cs) || containsSub needle cs

/-- Python `str.replace(pat, repl)` for a non-empty `pat`: scan left to right,
substituting every occurrence of `pat` and continuing after the substituted
text.  Structural on a fuel counter so the kernel can evaluate it; every scan
step consumes at least one input character, so `l.length` fuel is exact. -/
def replaceOccF : Nat → PyStr → PyStr → PyStr → PyStr
  | 0, _, _, l => l
  | Nat.succ _, _, _, [] => []
  | Nat.succ f, pat, repl, c :: cs =>
    if startsWith pat (c :: cs) ∧ pat ≠ [] then
      repl ++ replaceOccF f pat repl ((c :: cs).drop pat.length)
    else
      c :: replaceOccF f pat repl cs

/-- Python `str.replace(old, new)` written with the arguments in source order. -/
def pyReplace (l pat repl : PyStr) : PyStr := replaceOccF l.length pat repl l

/-! ## JSON values and `json.loads` / `json.dumps`

A model of Python's `json` module as used by the pipeline.  Numbers are kept as
their source lexemes (the pipeline never computes with JSON numbers).  Two
documented restrictions: `\uXXXX` escapes that denote surrogate code units are
rejected (Lean `Char` cannot hold them; no pipeline value uses them), and
string comparisons are exact code-point comparisons. -/

/-- A decoded JSON value (Python object resulting from `json.loads`). -/
inductive JVal where
  | jnull
  | jbool (b : Bool)
  | jnum (lex : PyStr)
  | jstr (s : PyStr)
  | jarr (items : List JVal)
  | jobj (members : List (PyStr × JVal))

/-- The whitespace the `json` scanner skips between tokens. -/
def jsWs (c : Char) : Bool := c = ' ' || c = '\t' || c = '\n' || c = '\r'

/-- Skip inter-token JSON whitespace. -/
def skipJsWs : PyStr → PyStr
  | c :: cs => if jsWs c then skipJsWs cs else c :: cs
  | [] => []

/-- Value of one hex digit, if it is one (codes 48-57 are `0`-`9`, 97-102 are
`a`-`f`, 65-70 are `A`-`F`). -/
def hexDigVal (c : Char) : Option Nat :=
  let n := c.toNat
  if 48 ≤ n ∧ n ≤ 57 then some (n - 48)
  else if 97 ≤ n ∧ n ≤ 102 then some (n - 87)
  else if 65 ≤ n ∧ n ≤ 70 then some (n - 55)
  else none

/-- Decode the two-character escapes of JSON strings. -/
def jsUnescape (c : Char) : Option Char :=
  if c = '"' then some '"'
  else if c = '\\' then some '\\'
  else if c = '/' then some '/'
  else if c = 'b' then some '\x08'
  else if c = 'f' then some '\x0c'
  else if c = 'n' then some '\n'
  else if c = 'r' then some '\r'
  else if c = 't' then some '\t'
  else none

/-- Read a JSON string body after the opening quote.  Strict mode as in
`json.loads`: raw control characters are rejected; `\uXXXX` escapes are decoded
(surrogate code units rejected, see module note). -/
def readStrBody : PyStr → Option (PyStr × PyStr)
  | [] => none
  | c :: rest =>
    if c = '"' then some ([], rest)
    else if c = '\\' then
      match rest with
      | 'u' :: h1 :: h2 :: h3 :: h4 :: r2 =>
        match hexDigVal h1, hexDigVal h2, hexDigVal h3, hexDigVal h4 with
        | some v1, some v2, some v3, some v4 =>
          let n := ((v1 * 16 + v2) * 16 + v3) * 16 + v4
          if 0xd800 ≤ n ∧ n < 0xe000 then none
          else
            match readStrBody r2 with
            | some (s, r) => some (Char.ofNat n :: s, r)
            | none => none
        | _, _, _, _ => none
      | e :: r2 =>
        match jsUnescape e, readStrBody r2 with
        | some ch, some (s, r) => some (ch :: s, r)
        | _, _ => none
      | [] => none
    else if c.toNat < 0x20 then none
    else
      match readStrBody rest with
      | some (s, r) => some (c :: s, r)
      | none => none

/-- Maximal run of ASCII digits. -/
def readDigits : PyStr → PyStr × PyStr
  | [] => ([], [])
  | c :: cs =>
    if !c.isDigit then ([], c :: cs)
    else
      let p := readDigits cs
      (c :: p.1, p.2)

/-- Read a JSON number lexeme (the `json` module's number regular expression:
optional minus, `0` or a nonzero-led digit run, optional fraction, optional
exponent), returning the lexeme and the rest. -/
def readJsNumber (l : PyStr) : Option (PyStr × PyStr) :=
  let (sgn, l1) : PyStr × PyStr :=
    match l with
    | '-' :: r => (['-'], r)
    | _ => ([], l)
  match l1 with
  | '0' :: r =>
    let (frac, r2) := readJsFrac r
    some (sgn ++ '0' :: frac, r2)
  | c :: r =>
    if c.isDigit then
      let (ds, r1) := readDigits r
      let (frac, r2) := readJsFrac r1
      some (sgn ++ c :: ds ++ frac, r2)
    else none
  | [] => none
where
  /-- Optional fraction and exponent parts of a JSON number. -/
  readJsFrac (l : PyStr) : PyStr × PyStr :=
    let (frac, l1) : PyStr × PyStr :=
      match l with
      | '.' :: r =>
        match readDigits r with
        | (d :: ds, r1) => ('.' :: d :: ds, r1)
        | ([], _) => ([], l)
      | _ => ([], l)
    let (ex, l2) : PyStr × PyStr :=
      match l1 with
      | 'e' :: r => readJsExp 'e' r l1
      | 'E' :: r => readJsExp 'E' r l1
      | _ => ([], l1)
    (frac ++ ex, l2)
  /-- Exponent part: sign then at least one digit, else nothing. -/
  readJsExp (e : Char) (r orig : PyStr) : PyStr × PyStr :=
    let (sg, r1) : PyStr × PyStr :=
      match r with
      | '+' :: r2 => (['+'], r2)
      | '-' :: r2 => (['-'], r2)
      | _ => ([], r)
    match readDigits r1 with
    | (d :: ds, r2) => (e :: sg ++ d :: ds, r2)
    | ([], _) => ([], orig)

mutual

/-- Parse one JSON value (fuelled; callers pass `input length + 1`). -/
def parseVal : Nat → PyStr → Option (JVal × PyStr)
  | 0, _ => none
  | Nat.succ f, l =>
    match skipJsWs l with
    | '"' :: rest =>
      match readStrBody rest with
      | some (s, r) => some (.jstr s, r)
      | none => none
    | '[' :: rest =>
      match skipJsWs rest with
      | ']' :: r2 => some (.jarr [], r2)
      | r2 => parseArrItems f r2
    | '\x7b' :: rest =>
      match skipJsWs rest with
      | '\x7d' :: r2 => some (.jobj [], r2)
      | r2 => parseObjMembers f r2
    | 't' :: 'r' :: 'u' :: 'e' :: rest => some (.jbool true, rest)
    | 'f' :: 'a' :: 'l' :: 's' :: 'e' :: rest => some (.jbool false, rest)
    | 'n' :: 'u' :: 'l' :: 'l' :: rest => some (.jnull, rest)
    | other =>
      match readJsNumber other with
      | some (lex, r) => some (.jnum lex, r)
      | none => none

/-- Parse the items of a non-empty JSON array, up to and including `]`. -/
def parseArrItems : Nat → PyStr → Option (JVal × PyStr)
  | 0, _ => none
  | Nat.succ f, l =>
    match parseVal f l with
    | some (v, r) =>
      match skipJsWs r with
      | ',' :: r2 =>
        match parseArrItems f r2 with
        | some (.jarr vs, r3) => some (.jarr (v :: vs), r3)
        | _ => none
      | ']' :: r2 => some (.jarr [v], r2)
      | _ => none
    | none => none

/-- Parse the members of a non-empty JSON object, up to and including `}`. -/
def parseObjMembers : Nat → PyStr → Option (JVal × PyStr)
  | 0, _ => none
  | Nat.succ f, l =>
    match skipJsWs l with
    | '"' :: rest =>
      match readStrBody rest with
      | some (k, r) =>
        match skipJsWs r with
        | ':' :: r2 =>
          match parseVal f r2 with
          | some (v, r3) =>
            match skipJsWs r3 with
            | ',' :: r4 =>
              match parseObjMembers f r4 with
              | some (.jobj ms, r5) => some (.jobj ((k, v) :: ms), r5)
              | _ => none
            | '\x7d' :: r4 => some (.jobj [(k, v)], r4)
            | _ => none
          | none => none
        | _ => none
      | none => none
    | _ => none

end

/-- Python `json.loads`: parse one value, then require only trailing
whitespace. `None` models a raised `JSONDecodeError`. -/
def jsonLoads (l : PyStr) : Option JVal :=
  match parseVal (l.length + 1) l with
  | some (v, rest) => if skipJsWs rest = [] then some v else none
  | none => none

/-- Lowercase hex digit, as emitted by `json.dumps` escapes (code 48 is `0`;
code 87 + 10 is `a`). -/
def hexChar (n : Nat) : Char :=
  Char.ofNat (if n < 10 then 48 + n else 87 + n)

/-- Four-digit lowercase hex rendering of `n < 0x10000`. -/
def hex4 (n : Nat) : PyStr :=
  [hexChar (n / 4096 % 16), hexChar (n / 256 % 16), hexChar (n / 16 % 16), hexChar (n % 16)]

/-- `json.dumps` escaping of one character with the default `ensure_ascii=True`:
characters outside `0x20..0x7e` are escaped (astral ones as surrogate pairs). -/
def escapeChar (c : Char) : PyStr :=
  if c = '"' then ['\\', '"']
  else if c = '\\' then ['\\', '\\']
  else if c = '\n' then ['\\', 'n']
  else if c = '\r' then ['\\', 'r']
  else if c = '\t' then ['\\', 't']
  else if c = '\x08' then ['\\', 'b']
  else if c = '\x0c' then ['\\', 'f']
  else if 0x20 ≤ c.toNat ∧ c.toNat ≤ 0x7e then [c]
  else if c.toNat < 0x10000 then '\\' :: 'u' :: hex4 c.toNat
  else
    let n := c.toNat - 0x10000
    ('\\' :: 'u' :: hex4 (0xd800 + n / 0x400)) ++ ('\\' :: 'u' :: hex4 (0xdc00 + n % 0x400))

/-- `json.dumps` rendering of a string. -/
def dumpStr (s : PyStr) : PyStr := '"' :: s.flatMap escapeChar ++ ['"']

mutual

/-- `json.dumps` with the default separators `", "` and `": "`. -/
def jsonDumps : JVal → PyStr
  | .jnull => lit "null"
  | .jbool true => lit "true"
  | .jbool false => lit "false"
  | .jnum lex => lex
  | .jstr s => dumpStr s
  | .jarr items => '[' :: dumpArrItems items ++ [']']
  | .jobj ms => '\x7b' :: dumpObjMembers ms ++ ['\x7d']

/-- Comma-separated rendering of array items. -/
def dumpArrItems : List JVal → PyStr
  | [] => []
  | [v] => jsonDumps v
  | v :: rest => jsonDumps v ++ ',' :: ' ' :: dumpArrItems rest

/-- Comma-separated rendering of object members. -/
def dumpObjMembers : List (PyStr × JVal) → PyStr
  | [] => []
  | [(k, v)] => dumpStr k ++ ':' :: ' ' :: jsonDumps v
  | (k, v) :: rest => dumpStr k ++ ':' :: ' ' :: jsonDumps v ++ ',' :: ' ' :: dumpObjMembers rest

end

/-! ## Extraction Service Adapters

`cerebras_extract_dates` (scraper/src/cerebras_extract_dates.py): the backend
response text is cleaned of code fences and validated against the pydantic
`ScheduleList` model; any parse or validation error is caught and `None`
returned.  `cohere_extract_dates` (scraper/src/cohere_extract_dates.py)
returns the raw response text; its cleaning (`cohere_clean_response`) and JSON
parsing happen in the driver. -/

/-- The pydantic `Schedule` model: five required string fields. -/
structure SchedRec where
  start_date : PyStr
  end_date : PyStr
  day_or_days_of_week : PyStr
  start_time : PyStr
  end_time : PyStr

/-- The pydantic `ScheduleList` model. -/
structure ScheduleList where
  schedules : List SchedRec

/-- Key lookup in a parsed JSON object.  Python builds a `dict`, so a later
duplicate key overwrites an earlier one: the last binding wins. -/
def jLookup : List (PyStr × JVal) → PyStr → Option JVal
  | [], _ => none
  | (k', v) :: rest, k =>
    match jLookup rest k with
    | some r => some r
    | none => if k' = k then some v else none

/-- `isinstance(v, dict)`. -/
def JVal.isObj : JVal → Bool
  | .jobj _ => true
  | _ => false

/-- Dictionary lookup on a JSON value (`none` when not an object or no key). -/
def JVal.objLookup : JVal → PyStr → Option JVal
  | .jobj ms, k => jLookup ms k
  | _, _ => none

/-- Python `key in v` for a dict value. -/
def JVal.hasKey (v : JVal) (k : PyStr) : Bool := (v.objLookup k).isSome

/-- Validation of one `Schedule` item: a dict whose five required fields are
strings (extra keys are ignored, as pydantic does by default). -/
def validateSched (v : JVal) : Option SchedRec :=
  match v with
  | .jobj ms =>
    match jLookup ms (lit "start_date"), jLookup ms (lit "end_date"),
        jLookup ms (lit "day_or_days_of_week"), jLookup ms (lit "start_time"),
        jLookup ms (lit "end_time") with
    | some (.jstr a), some (.jstr b), some (.jstr c), some (.jstr d), some (.jstr e) =>
      some ⟨a, b, c, d, e⟩
    | _, _, _, _, _ => none
  | _ => none

/-- Validation against the `ScheduleList` model: a dict with a `schedules` key
holding a list of valid `Schedule` items. -/
def validateScheduleList (v : JVal) : Option ScheduleList :=
  match v with
  | .jobj ms =>
    match jLookup ms (lit "schedules") with
    | some (.jarr items) =>
      match items.mapM validateSched with
      | some recs => some ⟨recs⟩
      | none => none
    | _ => none
  | _ => none

/-- Markdown code-fence opener stripped by both adapters. -/
def fenceJson : PyStr := lit "```json"

/-- Bare markdown code fence stripped by both adapters. -/
def fence3 : PyStr := lit "```"

/-- The cleanup applied to the Cerebras response text before parsing:
`response_text.replace("```json", "").replace("```", "").strip()`. -/
def cerebrasCleanText (r : PyStr) : PyStr :=
  pyStrip (pyReplace (pyReplace r fenceJson []) fence3 [])

/-- The response-handling tail of `cerebras_extract_dates`: clean the response
text, then `ScheduleList.model_validate_json`; the surrounding `try/except`
turns any parse or validation error into `None`. -/
def cerebrasProcessResponse (r : PyStr) : Option ScheduleList :=
  match jsonLoads (cerebrasCleanText r) with
  | some v => validateScheduleList v
  | none => none

/-- `cerebras_clean_response`: `response.model_dump()["schedules"]`, the Python
list of per-schedule dicts (pydantic preserves field order). -/
def cerebras_clean_response (sl : ScheduleList) : JVal :=
  .jarr (sl.schedules.map fun s =>
    .jobj [(lit "start_date", .jstr s.start_date),
           (lit "end_date", .jstr s.end_date),
           (lit "day_or_days_of_week", .jstr s.day_or_days_of_week),
           (lit "start_time", .jstr s.start_time),
           (lit "end_time", .jstr s.end_time)])

/-- `cohere_clean_response` (scraper/src/cohere_extract_dates.py lines 73-90):
strip code fences, strip surrounding whitespace, then delete newlines and
spaces and replace `null` with `None`. -/
def cohere_clean_response (r : PyStr) : PyStr :=
  pyReplace
    (pyReplace
      (pyReplace (pyStrip (pyReplace (pyReplace r fenceJson []) fence3 [])) (lit "\n") [])
      (lit " ") [])
    (lit "null") (lit "None")

/-! ## Resilient Extraction Orchestrator (`try_extract_dates`)

`try_extract_dates` wraps the adapter call in
`@retry(stop=stop_after_attempt(3), wait=wait_exponential(multiplier=2, min=4,
max=60), reraise=True)` and catches the re-raised error, returning `None`. -/

/-- Modelled from tenacity 8.2.x `wait_exponential.__call__` (the library the
source imports; no version is pinned in the repository, and every 2023+
release uses this formula): the sleep before retrying attempt `n + 1` is
`max(lo, min(multiplier * 2 ^ (n - 1), hi))` seconds. -/
def waitExponential (multiplier lo hi n : Nat) : Nat :=
  max lo (min (multiplier * 2 ^ (n - 1)) hi)

/-- One run of the retry-wrapped `_extract` inside `try_extract_dates`.
`attempts n` is the outcome of the n-th call of the wrapped adapter (`none`
models an exception).  `stop_after_attempt(3)` bounds the attempts; the final
exception is re-raised (`reraise=True`) and caught by the outer `try/except`,
which returns `None`.  The result carries the value produced, the backoff
sleeps performed (in seconds), and the number of attempts made. -/
def tryExtractDates (attempts : Nat → Option α) : Option α × List Nat × Nat :=
  match attempts 1 with
  | some a => (some a, [], 1)
  | none =>
    let w1 := waitExponential 2 4 60 1
    match attempts 2 with
    | some a => (some a, [w1], 2)
    | none =>
      let w2 := waitExponential 2 4 60 2
      (attempts 3, [w1, w2], 3)

/-! ## Batch Extraction Driver (scraper/src/scrape.py)

The driver is modelled as a pure fold.  Provider outcomes are abstracted by an
environment: `env.cerebras secs` / `env.cohere secs` are the results of the
corresponding retry-wrapped `try_extract_dates` calls (already `None` on
failure), so one consultation of the environment is one retry-wrapped provider
invocation sequence.  Checkpoint file contents are modelled at the JSON-value
level (a list of code strings, or `none` when the file does not exist); the
text-level JSON round-trip is established separately in the checkpoint-store
section. -/

/-- A course record (the JSON dict), with `none` for an absent key. -/
structure Course where
  course_code : Option PyStr
  course_name : Option PyStr
  course_sections : Option (List PyStr)
  schedules : Option JVal
  cleaned_response_schedules : Option PyStr

/-- Python truthiness of `course.get(...)` for a string field. -/
def truthyStr : Option PyStr → Bool
  | some (_ :: _) => true
  | _ => false

/-- Python truthiness of `course.get(...)` for a list-of-strings field. -/
def truthyList : Option (List PyStr) → Bool
  | some (_ :: _) => true
  | _ => false

/-- Whether a JSON number lexeme denotes zero (mantissa digits all `0`). -/
def isZeroNumLex (l : PyStr) : Bool :=
  let noSign := match l with
    | '-' :: r => r
    | _ => l
  let mantissa := noSign.takeWhile fun c => c != 'e' && c != 'E'
  mantissa.all fun c => c == '0' || c == '.'

/-- Python truthiness of a decoded JSON value. -/
def jTruthy : JVal → Bool
  | .jnull => false
  | .jbool b => b
  | .jnum lex => !(isZeroNumLex lex)
  | .jstr s => !s.isEmpty
  | .jarr items => !items.isEmpty
  | .jobj ms => !ms.isEmpty

/-- Python set insertion, modelled on duplicate-free lists. -/
def pySetAdd (l : List PyStr) (s : PyStr) : List PyStr :=
  if s ∈ l then l else l ++ [s]

/-- Python `set(iterable)`. -/
def pySetOf (l : List PyStr) : List PyStr := l.foldl pySetAdd []

/-- Provider outcomes for one run: the results of the retry-wrapped
`try_extract_dates` calls, per course-sections input. -/
structure Env where
  cerebras : List PyStr → Option ScheduleList
  cohere : List PyStr → Option PyStr

/-- The primary/fallback extraction block shared verbatim by both drivers
(scraper/src/scrape.py lines 430-461, python_scrape/scrape.py lines 337-360):
try Cerebras; on a falsy result fall back to Cohere; parse and attach the
schedules.  Returns the updated course, the number of Cerebras and of Cohere
retry-wrapped invocation sequences, and whether schedules were extracted. -/
def runExtraction (env : Env) (c : Course) : Course × Nat × Nat × Bool :=
  let secs := c.course_sections.getD []
  match env.cerebras secs with
  | some sl =>
    let cleaned := cerebras_clean_response sl
    ({ c with schedules := some cleaned,
              cleaned_response_schedules :=
                some (jsonDumps (.jobj [(lit "schedules", cleaned)])) }, 1, 0, true)
  | none =>
    match env.cohere secs with
    | some r =>
      if r.isEmpty then (c, 1, 1, false)
      else
        let cleanedResp := cohere_clean_response r
        let c1 := { c with cleaned_response_schedules := some cleanedResp }
        match jsonLoads cleanedResp with
        | some v =>
          if v.isObj && v.hasKey (lit "schedules") then
            ({ c1 with schedules := some ((v.objLookup (lit "schedules")).getD .jnull) },
             1, 1, true)
          else ({ c1 with schedules := some (.jarr []) }, 1, 1, false)
        | none => ({ c1 with schedules := some (.jarr []) }, 1, 1, false)
    | none => (c, 1, 1, false)

/-- `course["schedules"] = []` when the key is absent (both drivers' first
loop statement). -/
def initSchedules (c0 : Course) : Course :=
  if c0.schedules.isNone then { c0 with schedules := some (.jarr []) } else c0

/-- Course-processing outcome tag for the scraper driver's counters. -/
inductive Outcome where
  | noSections
  | withSchedules
  | withoutSchedules

/-- Result of processing one course in the scraper driver. -/
structure StepOut where
  course : Course
  cerebCalls : Nat
  cohCalls : Nat
  outcome : Outcome

/-- The course-local part of the scraper driver's loop body
(scraper/src/scrape.py lines 415-461): initialise `schedules` if absent, skip
extraction when `course_sections` is falsy, otherwise run the primary/fallback
extraction. -/
def processCourseS (env : Env) (c0 : Course) : StepOut :=
  let c := initSchedules c0
  if truthyList c.course_sections = false then ⟨c, 0, 0, .noSections⟩
  else
    let r := runExtraction env c
    ⟨r.1, r.2.1, r.2.2.1, if r.2.2.2 then .withSchedules else .withoutSchedules⟩

/-- Driver state threaded through the loop: the in-memory processed set, the
checkpoint file contents, and the run counters. -/
structure RunState where
  processed : List PyStr
  fileContent : Option (List PyStr)
  tryCalls : Nat
  periodicFlushes : Nat
  noSections : Nat
  withSched : Nat
  withoutSched : Nat

/-- `load_processed_courses` (scraper/src/utils.py lines 6-12) at the
JSON-value level: the set of codes in the checkpoint file, empty if absent. -/
def loadProcessedCoursesM (fs : Option (List PyStr)) : List PyStr :=
  match fs with
  | some l => pySetOf l
  | none => []

/-- One iteration of the scraper driver loop (scraper/src/scrape.py lines
414-473): process the course, add its code to the processed set, and — except
on the `continue` taken for section-less courses — flush the checkpoint when
the processed set's size is a multiple of 10. -/
def stepS (env : Env) (st : RunState) (c : Course) : RunState :=
  let code := c.course_code.getD []
  let out := processCourseS env c
  match out.outcome with
  | .noSections =>
    { st with processed := pySetAdd st.processed code, noSections := st.noSections + 1 }
  | .withSchedules =>
    let processed := pySetAdd st.processed code
    let st1 :=
      { st with processed := processed,
                tryCalls := st.tryCalls + out.cerebCalls + out.cohCalls,
                withSched := st.withSched + 1 }
    if processed.length % 10 = 0 then
      { st1 with fileContent := some processed, periodicFlushes := st1.periodicFlushes + 1 }
    else st1
  | .withoutSchedules =>
    let processed := pySetAdd st.processed code
    let st1 :=
      { st with processed := processed,
                tryCalls := st.tryCalls + out.cerebCalls + out.cohCalls,
                withoutSched := st.withoutSched + 1 }
    if processed.length % 10 = 0 then
      { st1 with fileContent := some processed, periodicFlushes := st1.periodicFlushes + 1 }
    else st1

/-- `clean_invalid_courses` (scraper/src/scrape.py lines 369-390): drop courses
with a falsy `course_code` and courses whose name contains `program`
(case-insensitively). -/
def clean_invalid_courses (data : List Course) : List Course :=
  data.filter fun c =>
    truthyStr c.course_code
      && !(containsSub (lit "program") ((c.course_name.getD []).map Char.toLower))

/-- Result of one driver run. -/
structure RunResult where
  data : List Course
  state : RunState
  unprocessedCount : Nat

/-- Whether a course is selected for processing: its `course_code` (absent
modelled as `none`, which is never in a set of strings) is not in the loaded
checkpoint set. -/
def isUnprocessed (processed0 : List PyStr) (c : Course) : Bool :=
  match c.course_code with
  | none => true
  | some cd => if cd ∈ processed0 then false else true

/-- `extract_dates_from_course_data` (scraper/src/scrape.py lines 393-483):
clean the corpus, load the checkpoint if resuming, process exactly the courses
whose codes are not checkpointed, and always flush the final processed set. -/
def extract_dates_from_course_dataS (env : Env) (fs : Option (List PyStr))
    (course_data : List Course) (resume : Bool) : RunResult :=
  let cleaned := clean_invalid_courses course_data
  let processed0 := if resume then loadProcessedCoursesM fs else []
  let unprocessed := cleaned.filter (isUnprocessed processed0)
  let st0 : RunState := ⟨processed0, fs, 0, 0, 0, 0, 0⟩
  let stMid := unprocessed.foldl (stepS env) st0
  let stFinal := { stMid with fileContent := some stMid.processed }
  ⟨cleaned.map fun c => if isUnprocessed processed0 c then (processCourseS env c).course else c,
   stFinal, unprocessed.length⟩

/-! ## Batch Extraction Driver, python_scrape variant (python_scrape/scrape.py)

This earlier driver version differs from the scraper one: no corpus cleaning,
a short-circuit accepting pre-parsed `cleaned_response_schedules`, a resume
skip inside the loop, and a guard requiring name, code, sections and empty
schedules before extraction.  Logging is modelled as a no-op (note: on a JSON
decode error in the short-circuit the source logs `course['course_name']`,
which would raise `KeyError` for a record without a name; no claim depends on
that path). -/

/-- Result of processing one course in the python_scrape driver. -/
structure PStepOut where
  course : Course
  processed : List PyStr
  cerebCalls : Nat
  cohCalls : Nat
  flushed : Bool

/-- The loop body of the python_scrape driver (python_scrape/scrape.py lines
310-367): initialise `schedules`; if a truthy `cleaned_response_schedules` is
present while `schedules` is falsy, try to parse it and, when it is a dict
with a `schedules` key, take the schedules from it, mark the course processed
and `continue`; otherwise fall through to the resume skip and the guarded
extraction, with a periodic checkpoint flush after extraction. -/
def processCourseP (env : Env) (resume : Bool) (processed : List PyStr) (c0 : Course) :
    PStepOut :=
  let code := c0.course_code.getD []
  let c := initSchedules c0
  let shortC : Option PStepOut :=
    if truthyStr c.cleaned_response_schedules && !(jTruthy (c.schedules.getD .jnull)) then
      match jsonLoads (c.cleaned_response_schedules.getD []) with
      | some v =>
        if v.isObj && v.hasKey (lit "schedules") then
          some ⟨{ c with schedules := some ((v.objLookup (lit "schedules")).getD .jnull) },
                if code.isEmpty then processed else pySetAdd processed code, 0, 0, false⟩
        else none
      | none => none
    else none
  match shortC with
  | some out => out
  | none =>
    if resume && decide (code ∈ processed) then ⟨c, processed, 0, 0, false⟩
    else if truthyStr c.course_name && !code.isEmpty && truthyList c.course_sections
        && !(jTruthy (c.schedules.getD .jnull)) then
      let (c', cb, ch, _) := runExtraction env c
      let processed' := pySetAdd processed code
      ⟨c', processed', cb, ch, processed'.length % 10 = 0⟩
    else ⟨c, processed, 0, 0, false⟩

/-! ## Reconciliation Comparator (scraper/db/compare_data.py)

`compare_data` reduces each schedule dict to the tuple of its five fields
(`.get`, so an absent key gives `None`) and compares the two sides'
tuple-sets; only the schedule lists of the two mappings matter for
`updated_courses`, so the mappings are modelled as code-keyed association
lists of schedule lists.  Python's sets are modelled by explicit
mutual-membership comparison and by `dedup` for cardinality. -/

/-- A schedule dict on the file (JSON) side; `none` models an absent key. -/
structure FileSched where
  start_date : Option PyStr
  end_date : Option PyStr
  day_or_days_of_week : Option PyStr
  start_time : Option PyStr
  end_time : Option PyStr
deriving DecidableEq

/-- A schedule dict on the database side; `none` models an absent key. -/
structure DbSched where
  start_date : Option PyStr
  end_date : Option PyStr
  day_of_week : Option PyStr
  start_time : Option PyStr
  end_time : Option PyStr
deriving DecidableEq

/-- The 5-field tuple a schedule is reduced to for comparison (fields in the
source's tuple order). -/
structure Tup5 where
  t1 : Option PyStr
  t2 : Option PyStr
  t3 : Option PyStr
  t4 : Option PyStr
  t5 : Option PyStr
deriving DecidableEq

/-- File-side tuple: `(s.get("start_date"), s.get("end_date"),
s.get("day_or_days_of_week"), s.get("start_time"), s.get("end_time"))`. -/
def FileSched.toTup (s : FileSched) : Tup5 :=
  ⟨s.start_date, s.end_date, s.day_or_days_of_week, s.start_time, s.end_time⟩

/-- Database-side tuple: `(s.get("start_date"), s.get("end_date"),
s.get("day_of_week"), s.get("start_time"), s.get("end_time"))`. -/
def DbSched.toTup (s : DbSched) : Tup5 :=
  ⟨s.start_date, s.end_date, s.day_of_week, s.start_time, s.end_time⟩

/-- Python set equality of the two tuple collections. -/
def setEqTup (a b : List Tup5) : Bool :=
  (a.all fun t => decide (t ∈ b)) && (b.all fun t => decide (t ∈ a))

/-- First-match association lookup (Python dict access; keys are unique). -/
def alookup : List (PyStr × α) → PyStr → Option α
  | [], _ => none
  | (k', v) :: rest, k => if k' = k then some v else alookup rest k

/-- One entry of `updated_courses`: the course code and the schedule-set
cardinalities of each side. -/
structure UpdatedEntry where
  course_code : PyStr
  json_schedules : Nat
  db_schedules : Nat
deriving DecidableEq

/-- The `updated_courses` computation of `compare_data` (scraper/db/
compare_data.py lines 100-132): for every code in both mappings, compare the
file-side and db-side schedule tuple-sets; on inequality report the code with
the distinct-tuple counts of each side. -/
def compareUpdatedCourses (jsonData : List (PyStr × List FileSched))
    (dbData : List (PyStr × List DbSched)) : List UpdatedEntry :=
  let dbCodes := dbData.map Prod.fst
  let inBoth := (jsonData.map Prod.fst).filter fun k => decide (k ∈ dbCodes)
  inBoth.filterMap fun code =>
    let js := ((alookup jsonData code).getD []).map FileSched.toTup
    let ds := ((alookup dbData code).getD []).map DbSched.toTup
    if setEqTup js ds then none
    else some ⟨code, js.dedup.length, ds.dedup.length⟩

/-! ## Database Loader helpers (scraper/db/load_data.py) -/

/-- ASCII letter. -/
def isAsciiAlpha (c : Char) : Bool :=
  ('A' ≤ c && c ≤ 'Z') || ('a' ≤ c && c ≤ 'z')

/-- Python `str.isalpha` on the character domain used in this development:
ASCII, plus the Latin-1 supplement where every code point in `0xc0..0xff`
except `×` and `÷` is a letter.  (Python's `isalpha` is Unicode-wide; theorems
quantify only over characters where this fragment agrees with it.) -/
def pyIsAlphaChar (c : Char) : Bool :=
  isAsciiAlpha c || (0xc0 ≤ c.toNat && c.toNat ≤ 0xff && c != '×' && c != '÷')

/-- Python `str.isalpha`: non-empty and all characters alphabetic. -/
def pyIsAlpha (l : PyStr) : Bool := !l.isEmpty && l.all pyIsAlphaChar

/-- Python `str.isdigit` on the same character domain (no code point in
`0x80..0x9f` or `0xc0..0xff` is a digit, so ASCII digits are exactly right
there). -/
def pyIsDigit (l : PyStr) : Bool := !l.isEmpty && l.all Char.isDigit

/-- Python `s.split(" ", 1)`: the part before the first space, and the rest
after it (`none` when there is no space). -/
def splitFirstSpace : PyStr → PyStr × Option PyStr
  | [] => ([], none)
  | c :: rest =>
    if c = ' ' then ([], some rest)
    else
      let (a, b) := splitFirstSpace rest
      (c :: a, b)

/-- `split_course_code` (scraper/db/load_data.py lines 78-101): split on the
first space; require exactly two parts, a 3-4 character alphabetic head and an
all-digit tail; otherwise return `(original_code, "")`.  The body cannot
raise, so the `except` branch is dead. -/
def split_course_code (course_code : PyStr) : PyStr × PyStr :=
  match splitFirstSpace course_code with
  | (_, none) => (course_code, [])
  | (pre, some num) =>
    if !(3 ≤ pre.length && pre.length ≤ 4 && pyIsAlpha pre) then (course_code, [])
    else if !(pyIsDigit num) then (course_code, [])
    else (pre, num)

/-- The specification's course-code pattern `^[A-Za-z]{3,4} \d+$` as a
recogniser (alphabetic run, then a space, then at least one digit; anchored,
since letters cannot extend past the space). -/
def matchesCourseCodePattern (l : PyStr) : Bool :=
  let pre := l.takeWhile isAsciiAlpha
  3 ≤ pre.length && pre.length ≤ 4 &&
    match l.dropWhile isAsciiAlpha with
    | ' ' :: ds => !ds.isEmpty && ds.all Char.isDigit
    | _ => false

/-! ## Time/Date Normalizer: `parse_date` (scraper/db/load_data.py lines 52-75)

`parse_date` strips the input and tries `datetime.strptime` with the formats
`"%Y-%m-%d"`, `"%d%b%Y"`, `"%B %d, %Y"` in order, returning `None` when all
fail.  CPython's `strptime` is embedded faithfully at these three format
strings: `%Y` is exactly four digits; `%m` matches `1[0-2]|0[1-9]|[1-9]`; `%d`
matches `3[01]|[12]\d|0[1-9]|[1-9]`; `%b`/`%B` match the C-locale month
abbreviations/names case-insensitively; a whitespace character in the format
matches one or more whitespace characters; the whole string must be consumed;
and the matched fields must form a constructible `datetime` (year at least 1,
day within the month), else `ValueError` is caught and the next format tried.
The numeric alternations are committed greedily, which agrees with the
backtracking regex because at each use the two-digit success and the one-digit
continuation require incompatible characters. -/

/-- Value of an ASCII digit character. -/
def digVal (c : Char) : Nat := c.toNat - '0'.toNat

/-- `%Y`: exactly four digits. -/
def read4Digits : PyStr → Option (Nat × PyStr)
  | c1 :: c2 :: c3 :: c4 :: rest =>
    if c1.isDigit && c2.isDigit && c3.isDigit && c4.isDigit then
      some (((digVal c1 * 10 + digVal c2) * 10 + digVal c3) * 10 + digVal c4, rest)
    else none
  | _ => none

/-- `%m`: `1[0-2]|0[1-9]|[1-9]`. -/
def readMonthNum : PyStr → Option (Nat × PyStr)
  | c1 :: c2 :: rest =>
    if c1 = '1' && '0' ≤ c2 && c2 ≤ '2' then some (10 + digVal c2, rest)
    else if c1 = '0' && '1' ≤ c2 && c2 ≤ '9' then some (digVal c2, rest)
    else if '1' ≤ c1 && c1 ≤ '9' then some (digVal c1, c2 :: rest)
    else none
  | [c1] => if '1' ≤ c1 && c1 ≤ '9' then some (digVal c1, []) else none
  | [] => none

/-- `%d`: `3[01]|[12]\d|0[1-9]|[1-9]`. -/
def readDayNum : PyStr → Option (Nat × PyStr)
  | c1 :: c2 :: rest =>
    if c1 = '3' && (c2 = '0' || c2 = '1') then some (30 + digVal c2, rest)
    else if ('1' ≤ c1 && c1 ≤ '2') && c2.isDigit then some (10 * digVal c1 + digVal c2, rest)
    else if c1 = '0' && '1' ≤ c2 && c2 ≤ '9' then some (digVal c2, rest)
    else if '1' ≤ c1 && c1 ≤ '9' then some (digVal c1, c2 :: rest)
    else none
  | [c1] => if '1' ≤ c1 && c1 ≤ '9' then some (digVal c1, []) else none
  | [] => none

/-- `%b`: the C-locale month abbreviations, case-insensitively. -/
def monthOfAbbrev (a b c : Char) : Option Nat :=
  let s : PyStr := [a.toLower, b.toLower, c.toLower]
  if s = lit "jan" then some 1
  else if s = lit "feb" then some 2
  else if s = lit "mar" then some 3
  else if s = lit "apr" then some 4
  else if s = lit "may" then some 5
  else if s = lit "jun" then some 6
  else if s = lit "jul" then some 7
  else if s = lit "aug" then some 8
  else if s = lit "sep" then some 9
  else if s = lit "oct" then some 10
  else if s = lit "nov" then some 11
  else if s = lit "dec" then some 12
  else none

/-- Strip a lowercase name as a case-insensitive prefix of the input. -/
def stripNameCI : PyStr → PyStr → Option PyStr
  | [], l => some l
  | _ :: _, [] => none
  | n :: ns, c :: cs => if c.toLower = n then stripNameCI ns cs else none

/-- The C-locale full month names (lowercased), in calendar order.  No name is
a prefix of another, so trying them in this order agrees with CPython's
longest-first alternation. -/
def monthNamesLower : List (PyStr × Nat) :=
  [(lit "january", 1), (lit "february", 2), (lit "march", 3), (lit "april", 4),
   (lit "may", 5), (lit "june", 6), (lit "july", 7), (lit "august", 8),
   (lit "september", 9), (lit "october", 10), (lit "november", 11), (lit "december", 12)]

/-- `%B`: match one full month name case-insensitively. -/
def readFullMonthAux : List (PyStr × Nat) → PyStr → Option (Nat × PyStr)
  | [], _ => none
  | (nm, m) :: rest, l =>
    match stripNameCI nm l with
    | some r => some (m, r)
    | none => readFullMonthAux rest l

/-- `%B` applied to the month-name table. -/
def readFullMonth (l : PyStr) : Option (Nat × PyStr) := readFullMonthAux monthNamesLower l

/-- A literal whitespace character in a `strptime` format: one or more
whitespace characters of the input (the following token is never whitespace
here, so eating greedily is exact). -/
def readWs1 : PyStr → Option PyStr
  | c :: rest => if pyWs c then some (rest.dropWhile pyWs) else none
  | [] => none

/-- Gregorian leap year, as `calendar`/`datetime` define it. -/
def isLeapYear (y : Nat) : Bool :=
  y % 4 = 0 && (y % 100 != 0 || y % 400 = 0)

/-- Length of a month. -/
def daysInMonth (y m : Nat) : Nat :=
  if m = 2 then (if isLeapYear y then 29 else 28)
  else if m = 4 || m = 6 || m = 9 || m = 11 then 30
  else 31

/-- A calendar date (the result of `parse_date` is a midnight `datetime`;
only the date part is ever meaningful). -/
structure PyDate where
  year : Nat
  month : Nat
  day : Nat
deriving DecidableEq

/-- The `datetime(year, month, day)` constructor's validation (month range is
already guaranteed by `%m`/`%b`/`%B`): `ValueError` becomes `none`. -/
def mkPyDate (y m d : Nat) : Option PyDate :=
  if 1 ≤ y ∧ 1 ≤ d ∧ d ≤ daysInMonth y m then some ⟨y, m, d⟩ else none

/-- `strptime(s, "%Y-%m-%d")`, requiring full consumption. -/
def matchISO (l : PyStr) : Option PyDate :=
  match read4Digits l with
  | some (y, '-' :: r1) =>
    match readMonthNum r1 with
    | some (m, '-' :: r2) =>
      match readDayNum r2 with
      | some (d, []) => mkPyDate y m d
      | _ => none
    | _ => none
  | _ => none

/-- `strptime(s, "%d%b%Y")`, requiring full consumption. -/
def matchDMonY (l : PyStr) : Option PyDate :=
  match readDayNum l with
  | some (d, a :: b :: c :: r1) =>
    match monthOfAbbrev a b c with
    | some m =>
      match read4Digits r1 with
      | some (y, []) => mkPyDate y m d
      | _ => none
    | none => none
  | _ => none

/-- `strptime(s, "%B %d, %Y")`, requiring full consumption. -/
def matchLong (l : PyStr) : Option PyDate :=
  match readFullMonth l with
  | some (m, r1) =>
    match readWs1 r1 with
    | some r2 =>
      match readDayNum r2 with
      | some (d, ',' :: r3) =>
        match readWs1 r3 with
        | some r4 =>
          match read4Digits r4 with
          | some (y, []) => mkPyDate y m d
          | _ => none
        | none => none
      | _ => none
    | none => none
  | none => none

/-- `parse_date` (scraper/db/load_data.py lines 52-75): `None` on a falsy
input, else strip and try the three formats in order; `None` when all fail. -/
def parse_date (l : PyStr) : Option PyDate :=
  if l.isEmpty then none
  else
    let t := pyStrip l
    match matchISO t with
    | some d => some d
    | none =>
      match matchDMonY t with
      | some d => some d
      | none => matchLong t

/-- ASCII digit character for `n < 10`. -/
def digitChar (n : Nat) : Char := Char.ofNat ('0'.toNat + n)

/-- Two-digit zero-padded decimal rendering. -/
def render2 (n : Nat) : PyStr := [digitChar (n / 10), digitChar (n % 10)]

/-- Four-digit zero-padded decimal rendering. -/
def render4 (n : Nat) : PyStr :=
  [digitChar (n / 1000), digitChar (n / 100 % 10), digitChar (n / 10 % 10), digitChar (n % 10)]

/-- Canonical month abbreviation, as in the format name `DDMonYYYY`. -/
def monthAbbr : Nat → PyStr
  | 1 => lit "Jan"
  | 2 => lit "Feb"
  | 3 => lit "Mar"
  | 4 => lit "Apr"
  | 5 => lit "May"
  | 6 => lit "Jun"
  | 7 => lit "Jul"
  | 8 => lit "Aug"
  | 9 => lit "Sep"
  | 10 => lit "Oct"
  | 11 => lit "Nov"
  | 12 => lit "Dec"
  | _ => []

/-- Canonical full month name, as in the format name `Month DD, YYYY`. -/
def monthFullName : Nat → PyStr
  | 1 => lit "January"
  | 2 => lit "February"
  | 3 => lit "March"
  | 4 => lit "April"
  | 5 => lit "May"
  | 6 => lit "June"
  | 7 => lit "July"
  | 8 => lit "August"
  | 9 => lit "September"
  | 10 => lit "October"
  | 11 => lit "November"
  | 12 => lit "December"
  | _ => []

/-- The literal `YYYY-MM-DD` rendering of a date. -/
def renderISO (y m d : Nat) : PyStr := render4 y ++ '-' :: render2 m ++ '-' :: render2 d

/-- The literal `DDMonYYYY` rendering of a date. -/
def renderDMonY (y m d : Nat) : PyStr := render2 d ++ monthAbbr m ++ render4 y

/-- The literal `Month DD, YYYY` rendering of a date. -/
def renderLong (y m d : Nat) : PyStr :=
  monthFullName m ++ ' ' :: render2 d ++ ',' :: ' ' :: render4 y

/-! ## Resume/Checkpoint Store (scraper/src/utils.py)

The text-level model of the checkpoint file: `save_processed_courses` writes
`json.dump(list(processed), f)` and `load_processed_courses` reads
`set(json.load(f))`.  The enumeration order of the Python set is arbitrary, so
the saver takes any enumeration of the set. -/

/-- `save_processed_courses`: the file text produced for an enumeration of the
processed set. -/
def save_processed_courses (enumeration : List PyStr) : PyStr :=
  jsonDumps (.jarr (enumeration.map .jstr))

/-- Iterating a decoded JSON array of strings (building `set(...)` requires
every element to be hashable; the saver only writes strings). -/
def extractStrs : List JVal → Option (List PyStr)
  | [] => some []
  | .jstr s :: rest =>
    match extractStrs rest with
    | some l => some (s :: l)
    | none => none
  | _ :: _ => none

/-- `load_processed_courses` applied to existing file text: `set(json.load(f))`.
`none` models a raised decode error; the store only ever reads files the saver
wrote, which decode to arrays of strings. -/
def load_processed_courses (fileText : PyStr) : Option (List PyStr) :=
  match jsonLoads fileText with
  | some (.jarr items) =>
    match extractStrs items with
    | some l => some (pySetOf l)
    | none => none
  | _ => none

/-! ## Statement ingredients and concrete fixtures -/

/-- A character that `json.dumps` emits verbatim: printable ASCII other than
the quote and the backslash. -/
def niceChar (c : Char) : Prop :=
  0x20 ≤ c.toNat ∧ c.toNat ≤ 0x7e ∧ c ≠ '"' ∧ c ≠ '\\'

instance (c : Char) : Decidable (niceChar c) := by
  unfold niceChar
  infer_instance

/-- The backtick character (an LLM response free of it contains no partial
code-fence text). -/
def backtick : Char := Char.ofNat 96

/-- A response text containing no backtick. -/
def backtickFree (r : PyStr) : Prop := ∀ c ∈ r, c ≠ backtick

instance (r : PyStr) : Decidable (backtickFree r) := by
  unfold backtickFree
  infer_instance

/-- Wrap a response text in a markdown code fence. -/
def fenceWrap (r : PyStr) : PyStr := fenceJson ++ r ++ fence3

/-- Exactly one of the five fields differs between two schedule tuples. -/
def oneFieldChanged (a b : Tup5) : Prop :=
  (a.t1 ≠ b.t1 ∧ a.t2 = b.t2 ∧ a.t3 = b.t3 ∧ a.t4 = b.t4 ∧ a.t5 = b.t5) ∨
  (a.t1 = b.t1 ∧ a.t2 ≠ b.t2 ∧ a.t3 = b.t3 ∧ a.t4 = b.t4 ∧ a.t5 = b.t5) ∨
  (a.t1 = b.t1 ∧ a.t2 = b.t2 ∧ a.t3 ≠ b.t3 ∧ a.t4 = b.t4 ∧ a.t5 = b.t5) ∨
  (a.t1 = b.t1 ∧ a.t2 = b.t2 ∧ a.t3 = b.t3 ∧ a.t4 ≠ b.t4 ∧ a.t5 = b.t5) ∨
  (a.t1 = b.t1 ∧ a.t2 = b.t2 ∧ a.t3 = b.t3 ∧ a.t4 = b.t4 ∧ a.t5 ≠ b.t5)

/-- An environment in which both providers always fail. -/
def envNone : Env := ⟨fun _ => none, fun _ => none⟩

/-- An adapter that raises on attempts 1 and 2 and succeeds on attempt 3. -/
def attemptsFailTwice : Nat → Option Nat := fun n => if n = 3 then some 7 else none

/-- A course with one section, a fresh code, and a pre-existing non-empty
`schedules` value. -/
def coursePrior : Course :=
  ⟨some (lit "ABCD 100"), some (lit "Welding"), some [lit "section text"],
   some (.jarr [.jstr (lit "old")]), none⟩

/-- A batch of ten section-less courses with distinct codes. -/
def tenNoSectionCourses : List Course :=
  [⟨some (lit "AAAA 100"), some (lit "N0"), none, none, none⟩,
   ⟨some (lit "AAAA 101"), some (lit "N1"), none, none, none⟩,
   ⟨some (lit "AAAA 102"), some (lit "N2"), none, none, none⟩,
   ⟨some (lit "AAAA 103"), some (lit "N3"), none, none, none⟩,
   ⟨some (lit "AAAA 104"), some (lit "N4"), none, none, none⟩,
   ⟨some (lit "AAAA 105"), some (lit "N5"), none, none, none⟩,
   ⟨some (lit "AAAA 106"), some (lit "N6"), none, none, none⟩,
   ⟨some (lit "AAAA 107"), some (lit "N7"), none, none, none⟩,
   ⟨some (lit "AAAA 108"), some (lit "N8"), none, none, none⟩,
   ⟨some (lit "AAAA 109"), some (lit "N9"), none, none, none⟩]

/-- A course carrying both a non-empty `schedules` value and a parseable
`cleaned_response_schedules` field. -/
def courseWithBoth : Course :=
  ⟨some (lit "ABCD 200"), some (lit "Baking"), some [lit "section text"],
   some (.jarr [.jstr (lit "old")]),
   some (lit "\x7b\"schedules\": [\"new\"]\x7d")⟩

/-- A course with no schedules yet and a parseable pre-parsed
`cleaned_response_schedules` field. -/
def courseShortC : Course :=
  ⟨some (lit "ABCD 300"), some (lit "Cooking"), some [lit "section text"], none,
   some (lit "\x7b\"schedules\": [\"x\"]\x7d")⟩

/-- Schedule tuple `A` of the reconciliation counterexample. -/
def tupA : Tup5 :=
  ⟨some (lit "2024-01-20"), some (lit "2024-04-15"), some (lit "Monday"),
   some (lit "18:00"), some (lit "21:00")⟩

/-- Schedule tuple `B`: `A` with its day field changed. -/
def tupB : Tup5 :=
  ⟨some (lit "2024-01-20"), some (lit "2024-04-15"), some (lit "Tuesday"),
   some (lit "18:00"), some (lit "21:00")⟩

/-- File-side schedule with tuple `A`. -/
def fsA : FileSched :=
  ⟨some (lit "2024-01-20"), some (lit "2024-04-15"), some (lit "Monday"),
   some (lit "18:00"), some (lit "21:00")⟩

/-- File-side schedule with tuple `B`. -/
def fsB : FileSched :=
  ⟨some (lit "2024-01-20"), some (lit "2024-04-15"), some (lit "Tuesday"),
   some (lit "18:00"), some (lit "21:00")⟩

/-- Database-side schedule with tuple `A`. -/
def dbA : DbSched :=
  ⟨some (lit "2024-01-20"), some (lit "2024-04-15"), some (lit "Monday"),
   some (lit "18:00"), some (lit "21:00")⟩

/-- Database-side schedule with tuple `B`. -/
def dbB : DbSched :=
  ⟨some (lit "2024-01-20"), some (lit "2024-04-15"), some (lit "Tuesday"),
   some (lit "18:00"), some (lit "21:00")⟩

/-! # Theorems -/

/-! ## Retry/backoff (claim C3) -/

/-- C3 (amended): for either provider, an invocation that raises on attempts 1
and 2 and succeeds on attempt 3 makes `try_extract_dates` return the
successful result after exactly 2 intervening backoff sleeps, both clamped to
the 4-second floor (so non-decreasing and within the 4..60 bounds, but not
strictly increasing), with 3 attempts made in total. -/
theorem try_extract_dates_fail_fail_succeed {α : Type} (attempts : Nat → Option α) (a : α)
    (h1 : attempts 1 = none) (h2 : attempts 2 = none) (h3 : attempts 3 = some a) :
    tryExtractDates attempts = (some a, [4, 4], 3) := by
  unfold tryExtractDates
  rw [h1, h2, h3]
  rfl

/-- Witness for `try_extract_dates_fail_fail_succeed` at a concrete adapter. -/
theorem try_extract_dates_fail_fail_succeed_witness :
    tryExtractDates attemptsFailTwice = (some 7, [4, 4], 3) :=
  try_extract_dates_fail_fail_succeed attemptsFailTwice 7 rfl rfl rfl

/-- C3 counterexample: with the source's retry policy
(`wait_exponential(multiplier=2, min=4, max=60)`, tenacity 8.2.x semantics),
an adapter failing on attempts 1 and 2 and succeeding on attempt 3 yields the
successful result, but the two intervening sleeps are both 4 seconds — the
sleep durations are not increasing, contrary to the claim. -/
theorem try_extract_dates_sleeps_not_increasing :
    (tryExtractDates attemptsFailTwice).1 = some 7 ∧
    (tryExtractDates attemptsFailTwice).2.1 = [4, 4] ∧
    ¬ List.Chain' (fun a b => a < b) (tryExtractDates attemptsFailTwice).2.1 := by
  refine ⟨rfl, rfl, ?_⟩
  intro h
  rw [try_extract_dates_fail_fail_succeed_witness] at h
  simp [List.chain'_cons] at h

/-! ## `split_course_code` (claim C8) -/

/-- `splitFirstSpace` returning no tail means the input had no space. -/
theorem splitFirstSpace_eq_none : ∀ {l a : PyStr}, splitFirstSpace l = (a, none) → l = a ∧ ' ' ∉ a := by
  intro l
  induction l with
  | nil =>
    intro a h
    simp only [splitFirstSpace, Prod.mk.injEq] at h
    obtain ⟨h1, -⟩ := h
    subst h1
    simp
  | cons c t ih =>
    intro a h
    by_cases hc : c = ' '
    · rw [splitFirstSpace, if_pos hc] at h
      simp at h
    · rcases hsp : splitFirstSpace t with ⟨a', ob⟩
      rw [splitFirstSpace, if_neg hc, hsp] at h
      simp only [Prod.mk.injEq] at h
      obtain ⟨h1, h2⟩ := h
      subst h2
      obtain ⟨ht, hmem⟩ := ih hsp
      subst h1
      refine ⟨by rw [ht], ?_⟩
      simp only [List.mem_cons, not_or]
      exact ⟨fun hsp2 => hc hsp2.symm, fun hm => hmem hm⟩

/-- `splitFirstSpace` returning a tail decomposes the input at its first
space. -/
theorem splitFirstSpace_eq_some : ∀ {l a b : PyStr}, splitFirstSpace l = (a, some b) →
    l = a ++ ' ' :: b ∧ ' ' ∉ a := by
  intro l
  induction l with
  | nil =>
    intro a b h
    simp [splitFirstSpace] at h
  | cons c t ih =>
    intro a b h
    by_cases hc : c = ' '
    · rw [splitFirstSpace, if_pos hc] at h
      simp only [Prod.mk.injEq, Option.some.injEq] at h
      obtain ⟨h1, h2⟩ := h
      subst h1
      subst h2
      subst hc
      simp
    · rcases hsp : splitFirstSpace t with ⟨a', ob⟩
      rw [splitFirstSpace, if_neg hc, hsp] at h
      simp only [Prod.mk.injEq] at h
      obtain ⟨h1, h2⟩ := h
      subst h2
      obtain ⟨ht, hmem⟩ := ih hsp
      subst h1
      refine ⟨by rw [List.cons_append, ← ht], ?_⟩
      simp only [List.mem_cons, not_or]
      exact ⟨fun hsp2 => hc hsp2.symm, fun hm => hmem hm⟩

/-- `takeWhile`/`dropWhile` on a list of the form `a ++ x :: t` with `p` true
on `a` and false at `x`. -/
theorem takeWhile_dropWhile_append (p : Char → Bool) :
    ∀ (a : PyStr) (x : Char) (t : PyStr), (∀ c ∈ a, p c = true) → p x = false →
      (a ++ x :: t).takeWhile p = a ∧ (a ++ x :: t).dropWhile p = x :: t := by
  intro a
  induction a with
  | nil =>
    intro x t _ hx
    simp [List.takeWhile, List.dropWhile, hx]
  | cons c cs ih =>
    intro x t ha hx
    have hc : p c = true := ha c (by simp)
    have := ih x t (fun d hd => ha d (by simp [hd])) hx
    simp [List.takeWhile, List.dropWhile, hc, this.1, this.2]

/-- `splitFirstSpace` on an explicit space-free prefix. -/
theorem splitFirstSpace_append : ∀ (a b : PyStr), ' ' ∉ a →
    splitFirstSpace (a ++ ' ' :: b) = (a, some b) := by
  intro a
  induction a with
  | nil => intro b _; simp [splitFirstSpace]
  | cons c cs ih =>
    intro b ha
    have hc : c ≠ ' ' := fun h => ha (by simp [h])
    have ih' := ih b (fun hm => ha (by simp [hm]))
    simp [splitFirstSpace, if_neg hc, ih']

/-- ASCII letters are alphabetic for Python. -/
theorem isAsciiAlpha_pyIsAlphaChar {c : Char} (h : isAsciiAlpha c = true) :
    pyIsAlphaChar c = true := by
  simp [pyIsAlphaChar, h]

/-- On ASCII characters, Python-alphabetic means ASCII-alphabetic. -/
theorem pyIsAlphaChar_ascii {c : Char} (hlt : c.toNat < 128) (h : pyIsAlphaChar c = true) :
    isAsciiAlpha c = true := by
  simp only [pyIsAlphaChar, Bool.or_eq_true, Bool.and_eq_true, decide_eq_true_eq] at h
  rcases h with h | h
  · exact h
  · omega

/-- C8 (amended): over ASCII inputs, `split_course_code` behaves exactly as the
pattern `^[A-Za-z]{3,4} \d+$` dictates: a matching string splits into its
alphabetic part and digit part (satisfying `isalpha` and `isdigit`), and every
non-matching string returns `(original_code, "")`.  (Python's `isalpha` and
`isdigit` are Unicode-wide, so some non-ASCII strings outside the pattern also
split; the function itself is total, so it never raises.) -/
theorem split_course_code_pattern (l : PyStr) (hascii : ∀ c ∈ l, c.toNat < 128) :
    (matchesCourseCodePattern l = true →
      split_course_code l = (l.takeWhile isAsciiAlpha, (l.dropWhile isAsciiAlpha).tail) ∧
      pyIsAlpha (l.takeWhile isAsciiAlpha) = true ∧
      pyIsDigit ((l.dropWhile isAsciiAlpha).tail) = true) ∧
    (matchesCourseCodePattern l = false → split_course_code l = (l, [])) := by
  constructor
  · intro hm
    unfold matchesCourseCodePattern at hm
    simp only [Bool.and_eq_true, decide_eq_true_eq] at hm
    obtain ⟨⟨h3, h4⟩, hrest⟩ := hm
    cases hdw : l.dropWhile isAsciiAlpha with
    | nil => rw [hdw] at hrest; simp at hrest
    | cons x ds =>
      rw [hdw] at hrest
      have hx : x = ' ' := by
        by_contra hxne
        cases x <;> simp_all
      subst hx
      simp only [Bool.and_eq_true] at hrest
      obtain ⟨hne, hdig⟩ := hrest
      have hpre : ∀ c ∈ l.takeWhile isAsciiAlpha, isAsciiAlpha c = true := by
        intro c hcmem
        exact List.mem_takeWhile_imp hcmem
      have hdecomp : l = l.takeWhile isAsciiAlpha ++ ' ' :: ds := by
        conv_lhs => rw [← List.takeWhile_append_dropWhile (p := isAsciiAlpha) (l := l)]
        rw [hdw]
      have hnosp : ' ' ∉ l.takeWhile isAsciiAlpha := by
        intro hmem
        have := hpre ' ' hmem
        simp [isAsciiAlpha] at this
      have hsplit : splitFirstSpace l = (l.takeWhile isAsciiAlpha, some ds) := by
        conv_lhs => rw [hdecomp]
        exact splitFirstSpace_append _ ds hnosp
      have halpha : pyIsAlpha (l.takeWhile isAsciiAlpha) = true := by
        unfold pyIsAlpha
        have hnonempty : (l.takeWhile isAsciiAlpha).isEmpty = false := by
          cases hemp : l.takeWhile isAsciiAlpha with
          | nil => rw [hemp] at h3; simp at h3
          | cons _ _ => rfl
        rw [hnonempty]
        simp only [Bool.not_false, Bool.true_and, List.all_eq_true]
        exact fun c hc => isAsciiAlpha_pyIsAlphaChar (hpre c hc)
      have hdigit : pyIsDigit ds = true := by
        unfold pyIsDigit
        rw [Bool.and_eq_true]
        exact ⟨by simpa using hne, hdig⟩
      refine ⟨?_, halpha, by simpa using hdigit⟩
      unfold split_course_code
      rw [hsplit]
      simp [h3, h4, halpha, hdigit]
  · intro hm
    rcases hsp : splitFirstSpace l with ⟨a, ob⟩
    cases ob with
    | none =>
      unfold split_course_code
      rw [hsp]
    | some b =>
      obtain ⟨hdecomp, hnosp⟩ := splitFirstSpace_eq_some hsp
      unfold split_course_code
      rw [hsp]
      by_cases hchk : (3 ≤ a.length && a.length ≤ 4 && pyIsAlpha a) = true
      · by_cases hdg : pyIsDigit b = true
        · exfalso
          simp only [Bool.and_eq_true, decide_eq_true_eq] at hchk
          obtain ⟨⟨h3, h4⟩, hal⟩ := hchk
          unfold pyIsAlpha at hal
          simp only [Bool.and_eq_true, List.all_eq_true] at hal
          have halpha : ∀ c ∈ a, isAsciiAlpha c = true := by
            intro c hc
            have hcl : c ∈ l := by rw [hdecomp]; simp [hc]
            exact pyIsAlphaChar_ascii (hascii c hcl) (hal.2 c hc)
          have hsplit2 := takeWhile_dropWhile_append isAsciiAlpha a ' ' b halpha (by rfl)
          rw [← hdecomp] at hsplit2
          unfold matchesCourseCodePattern at hm
          rw [hsplit2.1, hsplit2.2] at hm
          unfold pyIsDigit at hdg
          rw [Bool.and_eq_true] at hdg
          simp [h3, h4, hdg.1, hdg.2] at hm
        · simp only [Bool.not_eq_true] at hdg
          simp [hdg]
      · simp only [Bool.not_eq_true] at hchk
        simp [hchk]

/-- Witness for `split_course_code_pattern` at a concrete course code. -/
theorem split_course_code_pattern_witness :
    split_course_code (lit "HOSF 9489") = (lit "HOSF", lit "9489") ∧
    matchesCourseCodePattern (lit "HOSF 9489") = true := by
  have h := (split_course_code_pattern (lit "HOSF 9489") (by decide)).1 (by decide)
  exact ⟨h.1.trans (by decide), by decide⟩

/-- C8 counterexample: `split_course_code "ÉÀÇ 12"` returns `("ÉÀÇ", "12")`,
because Python's Unicode-wide `isalpha` accepts the non-ASCII prefix, although
the input does not match `^[A-Za-z]{3,4} \d+$`; the claim requires
`("ÉÀÇ 12", "")` for it. -/
theorem split_course_code_unicode_counterexample :
    matchesCourseCodePattern (lit "ÉÀÇ 12") = false ∧
    split_course_code (lit "ÉÀÇ 12") = (lit "ÉÀÇ", lit "12") ∧
    split_course_code (lit "ÉÀÇ 12") ≠ (lit "ÉÀÇ 12", []) := by
  refine ⟨by decide, by decide, by decide⟩

/-! ## Checkpoint store round-trip (claim C10) -/

/-- `json.dumps` emits a nice character verbatim. -/
theorem escapeChar_nice {c : Char} (h : niceChar c) : escapeChar c = [c] := by
  obtain ⟨h1, h2, h3, h4⟩ := h
  unfold escapeChar
  rw [if_neg h3, if_neg h4]
  rw [if_neg (by intro he; subst he; exact absurd h1 (by decide))]
  rw [if_neg (by intro he; subst he; exact absurd h1 (by decide))]
  rw [if_neg (by intro he; subst he; exact absurd h1 (by decide))]
  rw [if_neg (by intro he; subst he; exact absurd h1 (by decide))]
  rw [if_neg (by intro he; subst he; exact absurd h1 (by decide))]
  rw [if_pos ⟨h1, h2⟩]

/-- A nice string is escaped to itself. -/
theorem flatMap_escapeChar_nice : ∀ {s : PyStr}, (∀ c ∈ s, niceChar c) →
    s.flatMap escapeChar = s := by
  intro s
  induction s with
  | nil => intro _; rfl
  | cons c cs ih =>
    intro h
    rw [List.flatMap_cons, escapeChar_nice (h c (by simp)), ih fun d hd => h d (by simp [hd])]
    rfl

/-- Reading a string body: a nice string followed by a closing quote. -/
theorem readStrBody_nice : ∀ (s : PyStr), (∀ c ∈ s, niceChar c) → ∀ (rest : PyStr),
    readStrBody (s ++ '"' :: rest) = some (s, rest) := by
  intro s
  induction s with
  | nil =>
    intro _ rest
    rw [List.nil_append, readStrBody.eq_def]
    simp
  | cons c cs ih =>
    intro h rest
    obtain ⟨h1, h2, h3, h4⟩ := h c (by simp)
    have h5 : ¬ c.toNat < 0x20 := by omega
    rw [List.cons_append, readStrBody.eq_def]
    simp only [if_neg h3, if_neg h4, if_neg h5]
    rw [ih (fun d hd => h d (by simp [hd])) rest]

/-- One step of `parseVal` on a quote-headed input. -/
theorem parseVal_quote (f : Nat) (t : PyStr) :
    parseVal (f + 1) ('"' :: t) =
      (match readStrBody t with
       | some (s, r) => some (JVal.jstr s, r)
       | none => none) := rfl

/-- One step of `parseVal` on a non-empty string-array input. -/
theorem parseVal_bracket_quote (f : Nat) (t : PyStr) :
    parseVal (f + 1) ('[' :: '"' :: t) = parseArrItems f ('"' :: t) := rfl

/-- Parsing one dumped string value. -/
theorem parseVal_dumpStr (f : Nat) (s : PyStr) (h : ∀ c ∈ s, niceChar c) (rest : PyStr) :
    parseVal (f + 1) (dumpStr s ++ rest) = some (.jstr s, rest) := by
  unfold dumpStr
  rw [flatMap_escapeChar_nice h]
  have hinput : ('"' :: s ++ ['"']) ++ rest = '"' :: (s ++ '"' :: rest) := by simp
  rw [hinput, parseVal_quote, readStrBody_nice s h rest]

/-- Leading JSON whitespace is invisible to `parseVal`. -/
theorem parseVal_cons_space (f : Nat) (t : PyStr) :
    parseVal f (' ' :: t) = parseVal f t := by
  cases f with
  | zero => rfl
  | succ f =>
    rw [parseVal, parseVal]
    have hskip : skipJsWs (' ' :: t) = skipJsWs t := by
      rw [skipJsWs, if_pos (by decide)]
    rw [hskip]

/-- Leading JSON whitespace is invisible to `parseArrItems`. -/
theorem parseArrItems_cons_space (f : Nat) (t : PyStr) :
    parseArrItems f (' ' :: t) = parseArrItems f t := by
  cases f with
  | zero => rfl
  | succ f =>
    rw [parseArrItems, parseArrItems, parseVal_cons_space]

/-- Each dumped string item takes at least one character. -/
theorem dumpArrItems_length_ge : ∀ (ss : List PyStr),
    ss.length ≤ (dumpArrItems (ss.map .jstr)).length := by
  intro ss
  induction ss with
  | nil => exact Nat.zero_le _
  | cons x t ih =>
    cases t with
    | nil => simp [dumpArrItems, jsonDumps, dumpStr]
    | cons y u =>
      have : dumpArrItems ((x :: y :: u).map .jstr) =
          jsonDumps (.jstr x) ++ ',' :: ' ' :: dumpArrItems ((y :: u).map .jstr) := rfl
      rw [this]
      simp only [List.length_append, List.length_cons, List.length_map, jsonDumps, dumpStr]
      have h2 := ih
      simp only [List.length_map, List.length_cons] at h2 ⊢
      omega

/-- Parsing the dumped items of a non-empty string array, up to `]`. -/
theorem parseArrItems_strings : ∀ (ss : List PyStr) (f : Nat) (rest : PyStr),
    ss ≠ [] → (∀ s ∈ ss, ∀ c ∈ s, niceChar c) → ss.length < f →
    parseArrItems f (dumpArrItems (ss.map .jstr) ++ ']' :: rest) =
      some (.jarr (ss.map .jstr), rest) := by
  intro ss
  induction ss with
  | nil => intro f rest hne; exact absurd rfl hne
  | cons x t ih =>
    intro f rest _ hnice hlt
    have hx : ∀ c ∈ x, niceChar c := hnice x (by simp)
    cases f with
    | zero => omega
    | succ f =>
      rw [parseArrItems]
      cases t with
      | nil =>
        have harr : dumpArrItems ([x].map .jstr) ++ ']' :: rest = dumpStr x ++ ']' :: rest := rfl
        rw [harr]
        cases f with
        | zero => simp at hlt
        | succ f =>
          rw [parseVal_dumpStr f x hx (']' :: rest)]
          have hskip : skipJsWs (']' :: rest) = ']' :: rest := by
            rw [skipJsWs, if_neg (by decide)]
          simp [hskip]
      | cons y u =>
        have harr : dumpArrItems ((x :: y :: u).map .jstr) ++ ']' :: rest =
            dumpStr x ++ ',' :: ' ' ::
              (dumpArrItems ((y :: u).map .jstr) ++ ']' :: rest) := by
          show (dumpStr x ++ ',' :: ' ' :: dumpArrItems ((y :: u).map .jstr)) ++ ']' :: rest = _
          simp
        rw [harr]
        cases f with
        | zero => simp at hlt
        | succ f =>
          rw [parseVal_dumpStr f x hx (',' :: ' ' :: (dumpArrItems ((y :: u).map .jstr) ++ ']' :: rest))]
          have hskip : skipJsWs (',' :: ' ' :: (dumpArrItems ((y :: u).map .jstr) ++ ']' :: rest)) =
              ',' :: ' ' :: (dumpArrItems ((y :: u).map .jstr) ++ ']' :: rest) := by
            rw [skipJsWs, if_neg (by decide)]
          have hrec := ih (f + 1) rest (by simp) (fun s hs => hnice s (by simp [hs]))
            (by simp at hlt ⊢; omega)
          simp only [List.map_cons] at hskip hrec ⊢
          simp [hskip, parseArrItems_cons_space, hrec]

/-- `json.loads` inverts `json.dumps` on arrays of nice strings. -/
theorem jsonLoads_dump_strings (ss : List PyStr) (hnice : ∀ s ∈ ss, ∀ c ∈ s, niceChar c) :
    jsonLoads (jsonDumps (.jarr (ss.map .jstr))) = some (.jarr (ss.map .jstr)) := by
  unfold jsonLoads
  cases ss with
  | nil =>
    rfl
  | cons x t =>
    obtain ⟨body, hbody⟩ : ∃ body, dumpArrItems ((x :: t).map .jstr) = '"' :: body := by
      cases t with
      | nil => exact ⟨_, rfl⟩
      | cons y u => exact ⟨_, rfl⟩
    have hdump : jsonDumps (.jarr ((x :: t).map .jstr)) = '[' :: '"' :: (body ++ ']' :: []) := by
      show '[' :: dumpArrItems ((x :: t).map .jstr) ++ [']'] = _
      rw [hbody]
      simp
    rw [hdump]
    have hlenN : (x :: t).length < ('[' :: '"' :: (body ++ ']' :: [])).length := by
      have hge := dumpArrItems_length_ge (x :: t)
      rw [hbody] at hge
      simp only [List.length_cons, List.length_append] at hge ⊢
      omega
    have hitems := parseArrItems_strings (x :: t) (('[' :: '"' :: (body ++ ']' :: [])).length) []
      (by simp) hnice hlenN
    rw [hbody] at hitems
    simp only [List.cons_append] at hitems
    rw [parseVal_bracket_quote, hitems]
    rfl

/-- The string-projection of a dumped string list recovers the list. -/
theorem extractStrs_map_jstr : ∀ (ss : List PyStr), extractStrs (ss.map .jstr) = some ss := by
  intro ss
  induction ss with
  | nil => rfl
  | cons x t ih => simp [extractStrs, ih]

/-- Folding `pySetAdd` over fresh elements appends them. -/
theorem foldl_pySetAdd_nodup : ∀ (l acc : List PyStr), (acc ++ l).Nodup →
    l.foldl pySetAdd acc = acc ++ l := by
  intro l
  induction l with
  | nil => intro acc _; simp
  | cons x t ih =>
    intro acc hnd
    have hx : x ∉ acc := by
      intro hmem
      have := List.disjoint_of_nodup_append hnd
      exact this hmem (by simp)
    have hadd : pySetAdd acc x = acc ++ [x] := by
      unfold pySetAdd
      rw [if_neg hx]
    rw [List.foldl_cons, hadd, ih (acc ++ [x]) (by simpa using hnd)]
    simp

/-- `set(iterable)` of a duplicate-free list is that list. -/
theorem pySetOf_nodup {l : List PyStr} (h : l.Nodup) : pySetOf l = l := by
  unfold pySetOf
  rw [foldl_pySetAdd_nodup l [] (by simpa using h)]
  simp

/-- C10: checkpoint round-trip — `save_processed_courses` followed by
`load_processed_courses` returns a set equal to the saved set.  The saved set
is represented by any duplicate-free enumeration `s` (course codes are
printable ASCII, which `json.dumps` emits verbatim); the loaded set is exactly
that enumeration, hence equal as a set. -/
theorem checkpoint_roundtrip (s : List PyStr) (hnd : s.Nodup)
    (hnice : ∀ cs ∈ s, ∀ c ∈ cs, niceChar c) :
    load_processed_courses (save_processed_courses s) = some s := by
  unfold load_processed_courses save_processed_courses
  rw [jsonLoads_dump_strings s hnice]
  simp [extractStrs_map_jstr, pySetOf_nodup hnd]

/-- Witness for `checkpoint_roundtrip` at a concrete two-code set. -/
theorem checkpoint_roundtrip_witness :
    load_processed_courses (save_processed_courses [lit "HOSF 9489", lit "ABC 123"]) =
      some [lit "HOSF 9489", lit "ABC 123"] :=
  checkpoint_roundtrip [lit "HOSF 9489", lit "ABC 123"] (by decide) (by decide)

/-! ## Reconciliation comparator (claim C4) -/

/-- Python set equality of tuple collections, element-wise. -/
theorem setEqTup_iff {a b : List Tup5} :
    setEqTup a b = true ↔ ((∀ t ∈ a, t ∈ b) ∧ (∀ t ∈ b, t ∈ a)) := by
  simp [setEqTup, List.all_eq_true]

/-- First-match lookup finds the unique binding of a key under key-nodup. -/
theorem alookup_eq_of_mem {α : Type} : ∀ (m : List (PyStr × α)) (code : PyStr) (v : α),
    (m.map Prod.fst).Nodup → (code, v) ∈ m → alookup m code = some v := by
  intro m
  induction m with
  | nil =>
    intro code v _ h
    simp at h
  | cons p rest ih =>
    intro code v hnd hmem
    rcases p with ⟨k, w⟩
    rw [alookup]
    by_cases hk : k = code
    · subst hk
      rw [if_pos rfl]
      rcases List.mem_cons.mp hmem with heq | htail
      · injection heq with h1 h2
        rw [h2]
      · exfalso
        simp only [List.map_cons, List.nodup_cons] at hnd
        exact hnd.1 (List.mem_map_of_mem Prod.fst htail)
    · rw [if_neg hk]
      have hnd' : (rest.map Prod.fst).Nodup := by
        simp only [List.map_cons, List.nodup_cons] at hnd
        exact hnd.2
      apply ih code v hnd'
      rcases List.mem_cons.mp hmem with heq | htail
      · exact absurd (congrArg Prod.fst heq).symm hk
      · exact htail

/-- Replacing one element of a duplicate-free tuple list by a different tuple
breaks set-equality with any set-equal counterpart. -/
theorem set_change_breaks_setEq (a b : List Tup5) (i : Nat) (hi : i < a.length) (t' : Tup5)
    (hne : t' ≠ a[i]) (hnd : a.Nodup) (heq : setEqTup a b = true) :
    setEqTup (a.set i t') b = false := by
  obtain ⟨hab, hba⟩ := setEqTup_iff.mp heq
  have ht0b : a[i] ∈ b := hab _ (List.getElem_mem hi)
  have ht0notin : a[i] ∉ a.set i t' := by
    intro hmem
    obtain ⟨j, hj, hget⟩ := List.mem_iff_getElem.mp hmem
    rw [List.getElem_set] at hget
    by_cases hij : i = j
    · rw [if_pos hij] at hget
      exact hne hget
    · rw [if_neg hij] at hget
      exact hij ((List.Nodup.getElem_inj_iff hnd).mp hget).symm
  cases hval : setEqTup (a.set i t') b with
  | false => rfl
  | true =>
    obtain ⟨-, hba2⟩ := setEqTup_iff.mp hval
    exact absurd (hba2 _ ht0b) ht0notin

/-- Mapping commutes with positional replacement. -/
theorem map_set_toTup : ∀ (l : List FileSched) (i : Nat) (s' : FileSched),
    (l.set i s').map FileSched.toTup = (l.map FileSched.toTup).set i s'.toTup := by
  intro l
  induction l with
  | nil => intro i s'; rfl
  | cons x t ih =>
    intro i s'
    cases i with
    | zero => rfl
    | succ i => simp [List.set_cons_succ, ih]

/-- C4 (amended): a course code present in both mappings appears in
`updated_courses` exactly when its file-side set of 5-field schedule tuples
differs from its db-side set, and it is then reported with the distinct-tuple
counts of each side; moreover, starting from set-equal sides, changing one of
the five fields of one schedule on the file side makes the course appear as
updated, provided that side's tuples are duplicate-free (with duplicate
tuples, the changed list can still denote the same set). -/
theorem compare_updated_membership
    (jsonData : List (PyStr × List FileSched)) (dbData : List (PyStr × List DbSched))
    (hj : (jsonData.map Prod.fst).Nodup) (hd : (dbData.map Prod.fst).Nodup)
    (code : PyStr) (fl : List FileSched) (dl : List DbSched)
    (hjf : (code, fl) ∈ jsonData) (hdf : (code, dl) ∈ dbData) :
    ((∃ e ∈ compareUpdatedCourses jsonData dbData, e.course_code = code) ↔
      setEqTup (fl.map FileSched.toTup) (dl.map DbSched.toTup) = false) ∧
    (setEqTup (fl.map FileSched.toTup) (dl.map DbSched.toTup) = false →
      (⟨code, (fl.map FileSched.toTup).dedup.length,
        (dl.map DbSched.toTup).dedup.length⟩ : UpdatedEntry) ∈
          compareUpdatedCourses jsonData dbData) ∧
    (∀ (i : Nat) (h : i < fl.length) (s' : FileSched),
      oneFieldChanged s'.toTup ((fl.get ⟨i, h⟩).toTup) →
      (fl.map FileSched.toTup).Nodup →
      setEqTup (fl.map FileSched.toTup) (dl.map DbSched.toTup) = true →
      setEqTup ((fl.set i s').map FileSched.toTup) (dl.map DbSched.toTup) = false) := by
  have hlookj : alookup jsonData code = some fl := alookup_eq_of_mem _ _ _ hj hjf
  have hlookd : alookup dbData code = some dl := alookup_eq_of_mem _ _ _ hd hdf
  have hinboth : code ∈ (jsonData.map Prod.fst).filter
      (fun k => decide (k ∈ dbData.map Prod.fst)) := by
    rw [List.mem_filter]
    refine ⟨List.mem_map_of_mem Prod.fst hjf, ?_⟩
    simp only [decide_eq_true_eq]
    exact List.mem_map_of_mem Prod.fst hdf
  refine ⟨⟨?_, ?_⟩, ?_, ?_⟩
  · rintro ⟨e, hemem, hecode⟩
    unfold compareUpdatedCourses at hemem
    obtain ⟨c', hc'in, hfc'⟩ := List.mem_filterMap.mp hemem
    cases hset : setEqTup ((alookup jsonData c').getD [] |>.map FileSched.toTup)
        ((alookup dbData c').getD [] |>.map DbSched.toTup) with
    | true => rw [if_pos hset] at hfc'; exact absurd hfc' (by simp)
    | false =>
      rw [if_neg (by rw [hset]; exact Bool.false_ne_true)] at hfc'
      have he := Option.some.inj hfc'
      have hc'code : c' = code := by
        have := congrArg UpdatedEntry.course_code he
        simpa [hecode] using this
      subst hc'code
      rw [hlookj, hlookd] at hset
      simpa using hset
  · intro hset
    refine ⟨⟨code, (fl.map FileSched.toTup).dedup.length,
      (dl.map DbSched.toTup).dedup.length⟩, ?_, rfl⟩
    unfold compareUpdatedCourses
    apply List.mem_filterMap.mpr
    refine ⟨code, hinboth, ?_⟩
    rw [hlookj, hlookd]
    simp only [Option.getD_some]
    rw [if_neg (by rw [hset]; exact Bool.false_ne_true)]
  · intro hset
    unfold compareUpdatedCourses
    apply List.mem_filterMap.mpr
    refine ⟨code, hinboth, ?_⟩
    rw [hlookj, hlookd]
    simp only [Option.getD_some]
    rw [if_neg (by rw [hset]; exact Bool.false_ne_true)]
  · intro i h s' hchanged hnd heq
    rw [map_set_toTup]
    have hi2 : i < (fl.map FileSched.toTup).length := by simpa using h
    apply set_change_breaks_setEq _ _ i hi2 _ ?_ hnd heq
    have hget : (fl.map FileSched.toTup)[i] = (fl.get ⟨i, h⟩).toTup := by
      simp
    rw [hget]
    rcases hchanged with ⟨h1, -⟩ | ⟨-, h2, -⟩ | ⟨-, -, h3, -⟩ | ⟨-, -, -, h4, -⟩ | ⟨-, -, -, -, h5⟩
    · exact fun he => h1 (congrArg Tup5.t1 he)
    · exact fun he => h2 (congrArg Tup5.t2 he)
    · exact fun he => h3 (congrArg Tup5.t3 he)
    · exact fun he => h4 (congrArg Tup5.t4 he)
    · exact fun he => h5 (congrArg Tup5.t5 he)

/-- Witness for `compare_updated_membership` at a concrete one-course pair of
mappings with differing schedule sets. -/
theorem compare_updated_membership_witness :
    (⟨lit "C", ([fsA].map FileSched.toTup).dedup.length,
      ([dbB].map DbSched.toTup).dedup.length⟩ : UpdatedEntry) ∈
      compareUpdatedCourses [(lit "C", [fsA])] [(lit "C", [dbB])] :=
  (compare_updated_membership [(lit "C", [fsA])] [(lit "C", [dbB])]
    (by decide) (by decide) (lit "C") [fsA] [dbB] (by decide) (by decide)).2.1 (by decide)

/-- C4 counterexample: with a duplicated tuple in the file-side list,
changing one field of one schedule on the file side need not make the course
appear as updated.  Here `[A, A, B]` and `[A, B]` have equal tuple-sets (so
the course is, correctly, not updated); changing the day field of the first
file-side schedule (turning `A` into `B`) yields `[B, A, B]`, whose tuple-set
still equals the db side's — `updated_courses` stays empty, although one of
the five fields of one schedule was changed on one side. -/
theorem compare_updated_duplicate_counterexample :
    oneFieldChanged fsB.toTup fsA.toTup ∧
    setEqTup ([fsA, fsA, fsB].map FileSched.toTup) ([dbA, dbB].map DbSched.toTup) = true ∧
    [fsB, fsA, fsB] = [fsA, fsA, fsB].set 0 fsB ∧
    compareUpdatedCourses [(lit "C", [fsA, fsA, fsB])] [(lit "C", [dbA, dbB])] = [] ∧
    compareUpdatedCourses [(lit "C", [fsB, fsA, fsB])] [(lit "C", [dbA, dbB])] = [] := by
  refine ⟨?_, by decide, by decide, by decide, by decide⟩
  refine Or.inr (Or.inr (Or.inl ?_))
  refine ⟨by decide, by decide, by decide, by decide, by decide⟩

/-! ## Adapter output validation (claim C7) -/

/-- Every list starts with itself. -/
theorem startsWith_append_self : ∀ (pat rest : PyStr), startsWith pat (pat ++ rest) = true := by
  intro pat
  induction pat with
  | nil => intro rest; rfl
  | cons p ps ih =>
    intro rest
    simp [startsWith, ih]

/-- The fuel argument of `replaceOccF` is irrelevant once it covers the input
length. -/
theorem replaceOccF_fuel_eq : ∀ (f f' : Nat) (pat repl l : PyStr),
    l.length ≤ f → l.length ≤ f' → replaceOccF f pat repl l = replaceOccF f' pat repl l := by
  intro f
  induction f with
  | zero =>
    intro f' pat repl l hf _
    have hl : l = [] := List.eq_nil_of_length_eq_zero (Nat.le_zero.mp hf)
    subst hl
    cases f' <;> rfl
  | succ f ih =>
    intro f' pat repl l hf hf'
    cases l with
    | nil => cases f' <;> rfl
    | cons c cs =>
      cases f' with
      | zero => simp at hf'
      | succ f2 =>
        rw [replaceOccF, replaceOccF]
        by_cases hcond : startsWith pat (c :: cs) ∧ pat ≠ []
        · rw [if_pos hcond, if_pos hcond]
          congr 1
          have hp : 1 ≤ pat.length := by
            cases pat with
            | nil => exact absurd rfl hcond.2
            | cons q qs => simp
          apply ih
          · simp only [List.length_drop, List.length_cons] at *
            omega
          · simp only [List.length_drop, List.length_cons] at *
            omega
        · rw [if_neg hcond, if_neg hcond]
          congr 1
          apply ih
          · simp only [List.length_cons] at hf
            omega
          · simp only [List.length_cons] at hf'
            omega

/-- Replacement with a backtick-led pattern leaves a backtick-free text
unchanged. -/
theorem replaceOccF_not_bt : ∀ (l : PyStr) (f : Nat) (ps repl : PyStr), l.length ≤ f →
    backtickFree l → replaceOccF f (backtick :: ps) repl l = l := by
  intro l
  induction l with
  | nil =>
    intro f ps repl _ _
    cases f <;> rfl
  | cons c cs ih =>
    intro f ps repl hf h
    cases f with
    | zero => simp at hf
    | succ f =>
      have hc : backtick ≠ c := fun he => h c (by simp) he.symm
      have hsw : startsWith (backtick :: ps) (c :: cs) = false := by
        simp [startsWith, hc]
      rw [replaceOccF, if_neg (fun hcontra => absurd hcontra.1 (by simp [hsw]))]
      rw [ih f ps repl (by simp only [List.length_cons] at hf; omega)
        (fun d hd => h d (by simp [hd]))]

/-- Replacement with a backtick-led pattern walks past a backtick-free
prefix. -/
theorem replaceOccF_append_bt : ∀ (l : PyStr) (f : Nat) (tail ps repl : PyStr),
    l.length + tail.length ≤ f → backtickFree l →
    replaceOccF f (backtick :: ps) repl (l ++ tail) =
      l ++ replaceOccF tail.length (backtick :: ps) repl tail := by
  intro l
  induction l with
  | nil =>
    intro f tail ps repl hf _
    rw [List.nil_append, List.nil_append]
    exact replaceOccF_fuel_eq f tail.length _ _ tail (by omega) le_rfl
  | cons c cs ih =>
    intro f tail ps repl hf h
    cases f with
    | zero => simp at hf
    | succ f =>
      have hc : backtick ≠ c := fun he => h c (by simp) he.symm
      have hsw : startsWith (backtick :: ps) (c :: (cs ++ tail)) = false := by
        simp [startsWith, hc]
      rw [List.cons_append, replaceOccF, if_neg (fun hcontra => absurd hcontra.1 (by simp [hsw]))]
      rw [ih f tail ps repl (by simp only [List.length_cons] at hf; omega)
        (fun d hd => h d (by simp [hd]))]
      rfl

/-- Replacement consumes the pattern when the text starts with it. -/
theorem replaceOccF_strips : ∀ (pat rest repl : PyStr) (f : Nat), pat ≠ [] →
    pat.length + rest.length ≤ f →
    replaceOccF f pat repl (pat ++ rest) =
      repl ++ replaceOccF rest.length pat repl rest := by
  intro pat rest repl f hne hf
  cases pat with
  | nil => exact absurd rfl hne
  | cons p ps =>
    cases f with
    | zero => simp at hf
    | succ f =>
      rw [List.cons_append, replaceOccF]
      rw [if_pos ⟨by rw [← List.cons_append]; exact startsWith_append_self (p :: ps) rest,
        by simp⟩]
      have hdrop : (p :: (ps ++ rest)).drop (p :: ps).length = rest := by
        rw [← List.cons_append]
        exact List.drop_left (p :: ps) rest
      rw [hdrop]
      congr 1
      apply replaceOccF_fuel_eq
      · simp only [List.length_cons] at hf ⊢
        omega
      · exact le_rfl

/-- `pyReplace` with a backtick-led pattern is the identity on backtick-free
text. -/
theorem pyReplace_not_bt (l ps repl : PyStr) (h : backtickFree l) :
    pyReplace l (backtick :: ps) repl = l :=
  replaceOccF_not_bt l l.length ps repl le_rfl h

/-- `pyReplace` with a backtick-led pattern distributes over a backtick-free
prefix. -/
theorem pyReplace_append_bt (l tail ps repl : PyStr) (h : backtickFree l) :
    pyReplace (l ++ tail) (backtick :: ps) repl = l ++ pyReplace tail (backtick :: ps) repl := by
  unfold pyReplace
  rw [replaceOccF_append_bt l (l ++ tail).length tail ps repl (by simp) h]

/-- `pyReplace` consumes a leading occurrence of the pattern. -/
theorem pyReplace_strips (pat rest repl : PyStr) (hne : pat ≠ []) :
    pyReplace (pat ++ rest) pat repl = repl ++ pyReplace rest pat repl := by
  unfold pyReplace
  rw [replaceOccF_strips pat rest repl (pat ++ rest).length hne (by simp)]

/-- Both code-fence removal passes applied to a fence-wrapped backtick-free
response yield the bare response. -/
theorem fencePasses_wrap (r : PyStr) (h : backtickFree r) :
    pyReplace (pyReplace (fenceWrap r) fenceJson []) fence3 [] = r := by
  have hfj : fenceJson = backtick :: lit "``json" := by decide
  have hf3 : fence3 = backtick :: lit "``" := by decide
  unfold fenceWrap
  have h1 : pyReplace ((fenceJson ++ r) ++ fence3) fenceJson [] = r ++ fence3 := by
    rw [List.append_assoc, pyReplace_strips fenceJson (r ++ fence3) [] (by decide),
      List.nil_append, hfj, pyReplace_append_bt r fence3 _ [] h]
    rw [show pyReplace fence3 (backtick :: lit "``json") [] = fence3 from by decide]
  rw [h1, hf3, pyReplace_append_bt r (backtick :: lit "``") (lit "``") [] h]
  rw [show pyReplace (backtick :: lit "``") (backtick :: lit "``") [] = [] from by decide]
  simp

/-- Both code-fence removal passes leave a backtick-free response unchanged. -/
theorem fencePasses_plain (r : PyStr) (h : backtickFree r) :
    pyReplace (pyReplace r fenceJson []) fence3 [] = r := by
  have hfj : fenceJson = backtick :: lit "``json" := by decide
  have hf3 : fence3 = backtick :: lit "``" := by decide
  rw [hfj, pyReplace_not_bt r _ [] h, hf3, pyReplace_not_bt r _ [] h]

/-- C7: for both adapters, the backend response text is stripped of markdown
code-fence artifacts before JSON parsing (wrapping a backtick-free response in
a code fence does not change the outcome), and a response failing JSON
decoding or strict schema validation becomes a failure value — `None` from
the Cerebras adapter, and an empty `schedules` list in the driver's Cohere
branch — never an uncaught exception (all functions involved are total). -/
theorem adapter_output_validation :
    (∀ r : PyStr, backtickFree r →
      cerebrasProcessResponse (fenceWrap r) = cerebrasProcessResponse r) ∧
    (∀ r : PyStr, backtickFree r →
      cohere_clean_response (fenceWrap r) = cohere_clean_response r) ∧
    (∀ (r : PyStr) (v : JVal), jsonLoads (cerebrasCleanText r) = some v →
      validateScheduleList v = none → cerebrasProcessResponse r = none) ∧
    (∀ r : PyStr, jsonLoads (cerebrasCleanText r) = none → cerebrasProcessResponse r = none) ∧
    (∀ (env : Env) (c : Course) (r : PyStr), truthyList c.course_sections = true →
      env.cerebras (c.course_sections.getD []) = none →
      env.cohere (c.course_sections.getD []) = some r → r ≠ [] →
      jsonLoads (cohere_clean_response r) = none →
      (processCourseS env c).course.schedules = some (.jarr [])) := by
  refine ⟨?_, ?_, ?_, ?_, ?_⟩
  · intro r h
    unfold cerebrasProcessResponse cerebrasCleanText
    rw [fencePasses_wrap r h, fencePasses_plain r h]
  · intro r h
    unfold cohere_clean_response
    rw [fencePasses_wrap r h, fencePasses_plain r h]
  · intro r v hparse hval
    unfold cerebrasProcessResponse
    rw [hparse]
    exact hval
  · intro r hparse
    unfold cerebrasProcessResponse
    rw [hparse]
  · intro env c r hs hcer hcoh hne hparse
    unfold processCourseS
    have hsecs : (initSchedules c).course_sections = c.course_sections := by
      unfold initSchedules
      by_cases hsch : c.schedules.isNone <;> simp [hsch]
    rw [if_neg (by simp [hsecs, hs])]
    unfold runExtraction
    rw [hsecs]
    have hre : r.isEmpty = false := by
      cases r with
      | nil => exact absurd rfl hne
      | cons a b => rfl
    simp [hcer, hcoh, hre, hparse]

/-- Witness for `adapter_output_validation` at concrete responses. -/
theorem adapter_output_validation_witness :
    cerebrasProcessResponse (fenceWrap (lit "\x7b\"schedules\": []\x7d")) =
      cerebrasProcessResponse (lit "\x7b\"schedules\": []\x7d") ∧
    cohere_clean_response (fenceWrap (lit "\x7b\"schedules\": []\x7d")) =
      cohere_clean_response (lit "\x7b\"schedules\": []\x7d") ∧
    cerebrasProcessResponse (lit "\x7b\"schedules\": [\x7b\"start_date\": 5\x7d]\x7d") = none ∧
    cerebrasProcessResponse (lit "not json") = none := by
  refine ⟨adapter_output_validation.1 _ (by decide),
    adapter_output_validation.2.1 _ (by decide),
    adapter_output_validation.2.2.1 _
      (.jobj [(lit "schedules", .jarr [.jobj [(lit "start_date", .jnum (lit "5"))]])])
      rfl rfl,
    adapter_output_validation.2.2.2.1 _ rfl⟩

/-! ## Batch Extraction Driver (claims C1, C2, C5) -/

/-- Initialising `schedules` does not touch `course_sections`. -/
theorem initSchedules_course_sections (c : Course) :
    (initSchedules c).course_sections = c.course_sections := by
  unfold initSchedules
  by_cases h : c.schedules.isNone <;> simp [h]

/-- Initialising `schedules` does not touch `course_code`. -/
theorem initSchedules_course_code (c : Course) :
    (initSchedules c).course_code = c.course_code := by
  unfold initSchedules
  by_cases h : c.schedules.isNone <;> simp [h]

/-- Membership after a Python set insertion. -/
theorem mem_pySetAdd {x s : PyStr} {l : List PyStr} :
    x ∈ pySetAdd l s ↔ x ∈ l ∨ x = s := by
  unfold pySetAdd
  by_cases h : s ∈ l
  · rw [if_pos h]
    constructor
    · exact Or.inl
    · rintro (hx | rfl)
      · exact hx
      · exact h
  · rw [if_neg h]
    simp

/-- The processed set after one driver step is the old set plus the course's
code. -/
theorem stepS_processed (env : Env) (st : RunState) (c : Course) :
    (stepS env st c).processed = pySetAdd st.processed (c.course_code.getD []) := by
  unfold stepS
  cases h : (processCourseS env c).outcome
  · simp only [h]
  · simp only [h]
    split <;> rfl
  · simp only [h]
    split <;> rfl

/-- Folding the driver step preserves processed membership. -/
theorem foldl_stepS_mono (env : Env) : ∀ (cs : List Course) (st : RunState) (x : PyStr),
    x ∈ st.processed → x ∈ (cs.foldl (stepS env) st).processed := by
  intro cs
  induction cs with
  | nil => exact fun st x hx => hx
  | cons c t ih =>
    intro st x hx
    apply ih
    rw [stepS_processed]
    exact mem_pySetAdd.mpr (Or.inl hx)

/-- Folding the driver step records every processed course's code. -/
theorem foldl_stepS_contains (env : Env) : ∀ (cs : List Course) (st : RunState) (c : Course),
    c ∈ cs → c.course_code.getD [] ∈ (cs.foldl (stepS env) st).processed := by
  intro cs
  induction cs with
  | nil =>
    intro st c hc
    simp at hc
  | cons d t ih =>
    intro st c hc
    rcases List.mem_cons.mp hc with rfl | htail
    · rw [List.foldl_cons]
      apply foldl_stepS_mono
      rw [stepS_processed]
      exact mem_pySetAdd.mpr (Or.inr rfl)
    · exact ih _ c htail

/-- Membership in a fold of Python set insertions. -/
theorem mem_foldl_pySetAdd : ∀ (l acc : List PyStr) (x : PyStr),
    x ∈ l.foldl pySetAdd acc ↔ x ∈ acc ∨ x ∈ l := by
  intro l
  induction l with
  | nil => simp
  | cons s t ih =>
    intro acc x
    rw [List.foldl_cons, ih]
    rw [mem_pySetAdd]
    simp only [List.mem_cons]
    tauto

/-- Membership in the loaded checkpoint set. -/
theorem mem_pySetOf {l : List PyStr} {x : PyStr} : x ∈ pySetOf l ↔ x ∈ l := by
  unfold pySetOf
  rw [mem_foldl_pySetAdd]
  simp

/-- A course surviving `clean_invalid_courses` carries a code. -/
theorem clean_invalid_courses_code {data : List Course} {c : Course}
    (hc : c ∈ clean_invalid_courses data) : ∃ cd, c.course_code = some cd := by
  unfold clean_invalid_courses at hc
  have := (List.mem_filter.mp hc).2
  rw [Bool.and_eq_true] at this
  cases hcode : c.course_code with
  | none => rw [hcode] at this; simp [truthyStr] at this
  | some cd => exact ⟨cd, rfl⟩

/-- Loading a present checkpoint file yields its deduplicated code set. -/
theorem loadProcessedCoursesM_some (l : List PyStr) :
    loadProcessedCoursesM (some l) = pySetOf l := rfl

/-- Unfolded view of the counters of a resume-enabled run. -/
theorem run_resume_proj (env : Env) (fs : Option (List PyStr)) (data : List Course) :
    (extract_dates_from_course_dataS env fs data true).state.tryCalls =
      (((clean_invalid_courses data).filter
        (isUnprocessed (loadProcessedCoursesM fs))).foldl (stepS env)
        ⟨loadProcessedCoursesM fs, fs, 0, 0, 0, 0, 0⟩).tryCalls ∧
    (extract_dates_from_course_dataS env fs data true).unprocessedCount =
      ((clean_invalid_courses data).filter (isUnprocessed (loadProcessedCoursesM fs))).length :=
  ⟨rfl, rfl⟩

/-- C1: a second resume-enabled run over an unchanged corpus after a completed
run makes zero provider invocations — every surviving course code is in the
checkpoint loaded at start, so the unprocessed subset is empty and neither
extraction service is consulted. -/
theorem second_resume_run_idle (env1 env2 : Env) (fs : Option (List PyStr))
    (data : List Course) (r1 : Bool) :
    (extract_dates_from_course_dataS env2
      (extract_dates_from_course_dataS env1 fs data r1).state.fileContent
      data true).state.tryCalls = 0 ∧
    (extract_dates_from_course_dataS env2
      (extract_dates_from_course_dataS env1 fs data r1).state.fileContent
      data true).unprocessedCount = 0 := by
  have hfile : (extract_dates_from_course_dataS env1 fs data r1).state.fileContent =
      some (((clean_invalid_courses data).filter
        (isUnprocessed (if r1 then loadProcessedCoursesM fs else []))).foldl
        (stepS env1)
        ⟨if r1 then loadProcessedCoursesM fs else [], fs, 0, 0, 0, 0, 0⟩).processed := rfl
  have hall : ∀ c ∈ clean_invalid_courses data,
      isUnprocessed (loadProcessedCoursesM
        (extract_dates_from_course_dataS env1 fs data r1).state.fileContent) c = false := by
    intro c hc
    obtain ⟨cd, hcd⟩ := clean_invalid_courses_code hc
    have hmem2 : cd ∈ pySetOf (((clean_invalid_courses data).filter
        (isUnprocessed (if r1 then loadProcessedCoursesM fs else []))).foldl
        (stepS env1)
        ⟨if r1 then loadProcessedCoursesM fs else [], fs, 0, 0, 0, 0, 0⟩).processed := by
      rw [mem_pySetOf]
      by_cases hup : isUnprocessed (if r1 then loadProcessedCoursesM fs else []) c = true
      · have hcmem : c ∈ (clean_invalid_courses data).filter
            (isUnprocessed (if r1 then loadProcessedCoursesM fs else [])) :=
          List.mem_filter.mpr ⟨hc, hup⟩
        have := foldl_stepS_contains env1 _
          ⟨if r1 then loadProcessedCoursesM fs else [], fs, 0, 0, 0, 0, 0⟩ c hcmem
        rw [hcd] at this
        exact this
      · have hin : cd ∈ (if r1 then loadProcessedCoursesM fs else []) := by
          simp only [isUnprocessed, hcd] at hup
          by_cases hmem : cd ∈ (if r1 then loadProcessedCoursesM fs else [])
          · exact hmem
          · rw [if_neg hmem] at hup
            exact absurd rfl hup
        exact foldl_stepS_mono env1 _
          ⟨if r1 then loadProcessedCoursesM fs else [], fs, 0, 0, 0, 0, 0⟩ cd hin
    simp only [hfile, loadProcessedCoursesM_some, isUnprocessed, hcd]
    rw [if_pos hmem2]
  have hempty : (clean_invalid_courses data).filter
      (isUnprocessed (loadProcessedCoursesM
        (extract_dates_from_course_dataS env1 fs data r1).state.fileContent)) = [] := by
    apply List.filter_eq_nil.mpr
    intro c hc
    rw [hall c hc]
    exact Bool.false_ne_true
  have hproj := run_resume_proj env2
    (extract_dates_from_course_dataS env1 fs data r1).state.fileContent data
  rw [hproj.1, hproj.2, hempty]
  exact ⟨rfl, rfl⟩

/-- `runExtraction` on a successful primary provider. -/
theorem runExtraction_some (env : Env) (c : Course) (sl : ScheduleList)
    (h : env.cerebras (c.course_sections.getD []) = some sl) :
    runExtraction env c =
      ({ c with schedules := some (cerebras_clean_response sl),
                cleaned_response_schedules :=
                  some (jsonDumps (.jobj [(lit "schedules",
                    cerebras_clean_response sl)])) }, 1, 0, true) := by
  simp only [runExtraction, h]

/-- `runExtraction` when both providers fail: the course is returned
unchanged, after one primary and one fallback invocation sequence. -/
theorem runExtraction_none_none (env : Env) (c : Course)
    (h1 : env.cerebras (c.course_sections.getD []) = none)
    (h2 : env.cohere (c.course_sections.getD []) = none) :
    runExtraction env c = (c, 1, 1, false) := by
  simp only [runExtraction, h1, h2]

/-- `runExtraction` always makes exactly one primary invocation sequence, and
one fallback sequence exactly when the primary fails. -/
theorem runExtraction_counts (env : Env) (c : Course) :
    (runExtraction env c).2.1 = 1 ∧
    (runExtraction env c).2.2.1 =
      (if (env.cerebras (c.course_sections.getD [])).isSome then 0 else 1) := by
  cases hce : env.cerebras (c.course_sections.getD []) with
  | some sl =>
    rw [runExtraction_some env c sl hce]
    simp
  | none =>
    cases hco : env.cohere (c.course_sections.getD []) with
    | none =>
      rw [runExtraction_none_none env c hce hco]
      simp
    | some r =>
      simp only [runExtraction, hce, hco, Option.isSome_none]
      split
      · simp
      · cases hjl : jsonLoads (cohere_clean_response r) with
        | some v =>
          simp only [hjl]
          split <;> simp
        | none =>
          simp only [hjl]
          simp

/-- Reduced form of `processCourseS` on a course with truthy sections. -/
theorem processCourseS_sections (env : Env) (c0 : Course)
    (hsec : truthyList c0.course_sections = true) :
    processCourseS env c0 =
      ⟨(runExtraction env (initSchedules c0)).1,
       (runExtraction env (initSchedules c0)).2.1,
       (runExtraction env (initSchedules c0)).2.2.1,
       if (runExtraction env (initSchedules c0)).2.2.2 then Outcome.withSchedules
       else Outcome.withoutSchedules⟩ := by
  simp only [processCourseS]
  rw [initSchedules_course_sections, hsec]
  simp

/-- C2: for a course with non-empty `course_sections`, the primary provider is
consulted in exactly one retry-wrapped invocation sequence, the fallback
provider in exactly one such sequence if and only if the primary fails; when
both fail the course keeps the `schedules` value set at loop entry (the empty
list only if it had none before), is counted as extracted-without-schedules,
and the driver still records its code and moves on — the batch never aborts. -/
theorem fallback_iff_primary_fails (env : Env) (c0 : Course)
    (hsec : truthyList c0.course_sections = true) :
    (processCourseS env c0).cerebCalls = 1 ∧
    ((processCourseS env c0).cohCalls = 1 ↔
      env.cerebras (c0.course_sections.getD []) = none) ∧
    (env.cerebras (c0.course_sections.getD []) = none →
      env.cohere (c0.course_sections.getD []) = none →
      (processCourseS env c0).course.schedules = (initSchedules c0).schedules ∧
      (c0.schedules = none →
        (processCourseS env c0).course.schedules = some (JVal.jarr [])) ∧
      (processCourseS env c0).outcome = Outcome.withoutSchedules) ∧
    (∀ st : RunState, (stepS env st c0).processed =
      pySetAdd st.processed (c0.course_code.getD [])) := by
  rw [processCourseS_sections env c0 hsec]
  obtain ⟨h1, h2⟩ := runExtraction_counts env (initSchedules c0)
  rw [initSchedules_course_sections] at h2
  refine ⟨h1, ?_, ?_, fun st => stepS_processed env st c0⟩
  · show (runExtraction env (initSchedules c0)).2.2.1 = 1 ↔ _
    rw [h2]
    cases hce : env.cerebras (c0.course_sections.getD []) <;> simp
  · intro hce hco
    rw [← initSchedules_course_sections c0] at hce hco
    rw [runExtraction_none_none env (initSchedules c0) hce hco]
    refine ⟨rfl, ?_, rfl⟩
    intro hnone
    show (initSchedules c0).schedules = some (JVal.jarr [])
    unfold initSchedules
    rw [hnone]
    rfl

/-- C2 witness. -/
theorem fallback_iff_primary_fails_witness :
    truthyList coursePrior.course_sections = true ∧
    ((processCourseS envNone coursePrior).cerebCalls = 1 ∧
     ((processCourseS envNone coursePrior).cohCalls = 1 ↔
       envNone.cerebras (coursePrior.course_sections.getD []) = none) ∧
     (envNone.cerebras (coursePrior.course_sections.getD []) = none →
       envNone.cohere (coursePrior.course_sections.getD []) = none →
       (processCourseS envNone coursePrior).course.schedules =
         (initSchedules coursePrior).schedules ∧
       (coursePrior.schedules = none →
         (processCourseS envNone coursePrior).course.schedules =
           some (JVal.jarr [])) ∧
       (processCourseS envNone coursePrior).outcome = Outcome.withoutSchedules) ∧
     (∀ st : RunState, (stepS envNone st coursePrior).processed =
       pySetAdd st.processed (coursePrior.course_code.getD []))) :=
  ⟨rfl, fallback_iff_primary_fails envNone coursePrior rfl⟩

/-- C2 counterexample: with both providers failing, a course that entered the
loop with a non-empty `schedules` value keeps it — the driver does not set the
schedule list to empty. -/
theorem both_fail_keeps_prior_schedules_counterexample :
    truthyList coursePrior.course_sections = true ∧
    envNone.cerebras (coursePrior.course_sections.getD []) = none ∧
    envNone.cohere (coursePrior.course_sections.getD []) = none ∧
    (processCourseS envNone coursePrior).course.schedules =
      some (JVal.jarr [JVal.jstr (lit "old")]) ∧
    (processCourseS envNone coursePrior).course.schedules ≠ some (JVal.jarr []) := by
  refine ⟨rfl, rfl, rfl, rfl, ?_⟩
  intro h
  have h2 : JVal.jarr [JVal.jstr (lit "old")] = JVal.jarr [] := by
    have h0 : (processCourseS envNone coursePrior).course.schedules =
        some (JVal.jarr [JVal.jstr (lit "old")]) := rfl
    rw [h0] at h
    exact Option.some.inj h
  simp at h2

/-- `processCourseS` on a section-less course: no extraction, outcome tag
`noSections`. -/
theorem processCourseS_noSections (env : Env) (c : Course)
    (hsec : truthyList c.course_sections = false) :
    (processCourseS env c).outcome = Outcome.noSections := by
  simp only [processCourseS]
  rw [initSchedules_course_sections, hsec]
  rfl

/-- C5: the checkpoint is always flushed once at run end with the final
processed set; during the run, a flush happens on a course with sections
exactly when the updated processed set's total size is a multiple of 10, and
never on a section-less course (whose `continue` skips the flush check). -/
theorem checkpoint_flush_policy (env : Env) (fs : Option (List PyStr))
    (data : List Course) (r : Bool) (st : RunState) (c : Course) :
    (extract_dates_from_course_dataS env fs data r).state.fileContent =
      some (extract_dates_from_course_dataS env fs data r).state.processed ∧
    (truthyList c.course_sections = true →
      (stepS env st c).periodicFlushes =
        st.periodicFlushes +
          (if (pySetAdd st.processed (c.course_code.getD [])).length % 10 = 0
           then 1 else 0) ∧
      (stepS env st c).fileContent =
        (if (pySetAdd st.processed (c.course_code.getD [])).length % 10 = 0
         then some (pySetAdd st.processed (c.course_code.getD []))
         else st.fileContent)) ∧
    (truthyList c.course_sections = false →
      (stepS env st c).periodicFlushes = st.periodicFlushes ∧
      (stepS env st c).fileContent = st.fileContent) := by
  refine ⟨rfl, ?_, ?_⟩
  · intro hsec
    simp only [stepS, processCourseS_sections env c hsec]
    cases hb : (runExtraction env (initSchedules c)).2.2.2 <;>
      simp only [hb, Bool.false_eq_true, if_false, if_true] <;>
      exact ⟨by split <;> rfl, by split <;> rfl⟩
  · intro hsec
    simp only [stepS, processCourseS_noSections env c hsec]
    exact ⟨by trivial, by trivial⟩

/-- C5 witness. -/
theorem checkpoint_flush_policy_witness :
    truthyList coursePrior.course_sections = true ∧
    ((stepS envNone ⟨[], none, 0, 0, 0, 0, 0⟩ coursePrior).periodicFlushes =
        0 + (if (pySetAdd [] (coursePrior.course_code.getD [])).length % 10 = 0
          then 1 else 0) ∧
     (stepS envNone ⟨[], none, 0, 0, 0, 0, 0⟩ coursePrior).fileContent =
        (if (pySetAdd [] (coursePrior.course_code.getD [])).length % 10 = 0
         then some (pySetAdd [] (coursePrior.course_code.getD []))
         else none)) :=
  ⟨rfl,
   (checkpoint_flush_policy envNone none [] false
     ⟨[], none, 0, 0, 0, 0, 0⟩ coursePrior).2.1 rfl⟩

/-- C5 counterexample: a run over ten section-less courses with no prior
checkpoint newly processes ten course codes but performs zero periodic
flushes — the section-less `continue` bypasses the every-10 flush check. -/
theorem flush_skipped_counterexample :
    (extract_dates_from_course_dataS envNone none tenNoSectionCourses
      false).state.processed.length = 10 ∧
    (extract_dates_from_course_dataS envNone none tenNoSectionCourses
      false).state.periodicFlushes = 0 := by
  constructor
  · rfl
  · rfl

/-- C6: the python_scrape driver's short-circuit — a course whose
`cleaned_response_schedules` parses to a JSON object with a `schedules` key
while its `schedules` value is falsy is accepted as-is: the schedules are
taken from that field, its code is marked processed, no provider is invoked
and no checkpoint flush is triggered, regardless of the resume flag. -/
theorem short_circuit_accepts_preparsed (env : Env) (resume : Bool)
    (processed : List PyStr) (c0 : Course) (v : JVal)
    (hcr : truthyStr (initSchedules c0).cleaned_response_schedules = true)
    (hsch : jTruthy ((initSchedules c0).schedules.getD .jnull) = false)
    (hjl : jsonLoads ((initSchedules c0).cleaned_response_schedules.getD []) = some v)
    (hobj : (v.isObj && v.hasKey (lit "schedules")) = true) :
    processCourseP env resume processed c0 =
      ⟨{ initSchedules c0 with
           schedules := some ((v.objLookup (lit "schedules")).getD .jnull) },
        if (c0.course_code.getD []).isEmpty then processed
        else pySetAdd processed (c0.course_code.getD []), 0, 0, false⟩ := by
  simp only [processCourseP, hcr, hsch, hjl, hobj, Bool.not_false, Bool.and_self,
    if_true]

/-- C6 witness. -/
theorem short_circuit_accepts_preparsed_witness :
    jsonLoads ((initSchedules courseShortC).cleaned_response_schedules.getD []) =
      some (JVal.jobj [(lit "schedules", JVal.jarr [JVal.jstr (lit "x")])]) ∧
    processCourseP envNone false [] courseShortC =
      ⟨{ initSchedules courseShortC with
           schedules := some (JVal.jarr [JVal.jstr (lit "x")]) },
        if (courseShortC.course_code.getD []).isEmpty then []
        else pySetAdd [] (courseShortC.course_code.getD []), 0, 0, false⟩ :=
  ⟨rfl,
   short_circuit_accepts_preparsed envNone false [] courseShortC
     (JVal.jobj [(lit "schedules", JVal.jarr [JVal.jstr (lit "x")])])
     rfl rfl rfl rfl⟩

/-- C6 counterexample: the current scraper driver has no such short-circuit —
a course whose `cleaned_response_schedules` parses as JSON and is non-empty
still triggers a provider invocation, and its schedules are not taken from
that field. -/
theorem preparsed_not_applied_counterexample :
    truthyStr courseShortC.cleaned_response_schedules = true ∧
    jTruthy ((jsonLoads
      (courseShortC.cleaned_response_schedules.getD [])).getD .jnull) = true ∧
    (processCourseS envNone courseShortC).cerebCalls = 1 ∧
    (processCourseS envNone courseShortC).course.schedules ≠
      some (JVal.jarr [JVal.jstr (lit "x")]) := by
  refine ⟨rfl, rfl, rfl, ?_⟩
  intro h
  have h0 : (processCourseS envNone courseShortC).course.schedules =
      some (JVal.jarr []) := rfl
  rw [h0] at h
  have h2 := Option.some.inj h
  simp at h2

/-- Digit characters are digits. -/
theorem digitChar_isDigit (n : Nat) (h : n ≤ 9) : (digitChar n).isDigit = true := by
  interval_cases n <;> rfl

/-- `digVal` inverts `digitChar` on digit values. -/
theorem digVal_digitChar (n : Nat) (h : n ≤ 9) : digVal (digitChar n) = n := by
  interval_cases n <;> rfl

/-- Digit characters are not whitespace. -/
theorem pyWs_digitChar (n : Nat) (h : n ≤ 9) : pyWs (digitChar n) = false := by
  interval_cases n <;> rfl

/-- `dropWhile` is the identity when no element satisfies the predicate. -/
theorem dropWhile_all_false (p : Char → Bool) :
    ∀ l : PyStr, (∀ c ∈ l, p c = false) → l.dropWhile p = l := by
  intro l h
  induction l with
  | nil => rfl
  | cons c r ih =>
    rw [List.dropWhile_cons, h c (by simp)]
    simp

/-- `strip()` is the identity on strings with no whitespace character. -/
theorem pyStrip_all_not_ws (l : PyStr) (h : ∀ c ∈ l, pyWs c = false) :
    pyStrip l = l := by
  unfold pyStrip pyStripR
  rw [dropWhile_all_false pyWs l h,
    dropWhile_all_false pyWs l.reverse
      (fun c hc => h c (List.mem_reverse.mp hc)),
    List.reverse_reverse]

/-- Prepending a non-whitespace character preserves whitespace-freedom. -/
theorem all_not_ws_cons (a : Char) (l : PyStr) (ha : pyWs a = false)
    (hl : ∀ c ∈ l, pyWs c = false) : ∀ c ∈ a :: l, pyWs c = false := by
  intro c hc
  rcases List.mem_cons.mp hc with rfl | hc
  · exact ha
  · exact hl c hc

/-- Concatenation preserves whitespace-freedom. -/
theorem all_not_ws_append (l1 l2 : PyStr) (h1 : ∀ c ∈ l1, pyWs c = false)
    (h2 : ∀ c ∈ l2, pyWs c = false) : ∀ c ∈ l1 ++ l2, pyWs c = false := by
  intro c hc
  rcases List.mem_append.mp hc with hc | hc
  · exact h1 c hc
  · exact h2 c hc

/-- `render4` contains no whitespace (for four-digit values). -/
theorem all_not_ws_render4 (y : Nat) (h : y ≤ 9999) :
    ∀ c ∈ render4 y, pyWs c = false := by
  intro c hc
  simp only [render4, List.mem_cons, List.not_mem_nil, or_false] at hc
  rcases hc with rfl | rfl | rfl | rfl <;> (apply pyWs_digitChar; omega)

/-- `render2` contains no whitespace (for two-digit values). -/
theorem all_not_ws_render2 (n : Nat) (h : n ≤ 99) :
    ∀ c ∈ render2 n, pyWs c = false := by
  intro c hc
  simp only [render2, List.mem_cons, List.not_mem_nil, or_false] at hc
  rcases hc with rfl | rfl <;> (apply pyWs_digitChar; omega)

/-- `%Y` reads back a four-digit rendering, leaving the rest untouched. -/
theorem read4Digits_render4 (y : Nat) (h : y ≤ 9999) (rest : PyStr) :
    read4Digits (digitChar (y / 1000) :: digitChar (y / 100 % 10) ::
      digitChar (y / 10 % 10) :: digitChar (y % 10) :: rest) = some (y, rest) := by
  have h1 : y / 1000 ≤ 9 := by omega
  have h2 : y / 100 % 10 ≤ 9 := by omega
  have h3 : y / 10 % 10 ≤ 9 := by omega
  have h4 : y % 10 ≤ 9 := by omega
  simp only [read4Digits, digitChar_isDigit _ h1, digitChar_isDigit _ h2,
    digitChar_isDigit _ h3, digitChar_isDigit _ h4, Bool.and_self, if_true,
    digVal_digitChar _ h1, digVal_digitChar _ h2, digVal_digitChar _ h3,
    digVal_digitChar _ h4]
  have hy : ((y / 1000 * 10 + y / 100 % 10) * 10 + y / 10 % 10) * 10 + y % 10 = y := by
    omega
  rw [hy]

/-- `%m` reads back a zero-padded two-digit month, leaving the rest. -/
theorem readMonthNum_render2 (m : Nat) (h1 : 1 ≤ m) (h2 : m ≤ 12) (rest : PyStr) :
    readMonthNum (digitChar (m / 10) :: digitChar (m % 10) :: rest) =
      some (m, rest) := by
  interval_cases m <;> rfl

/-- `%d` reads back a zero-padded two-digit day, leaving the rest. -/
theorem readDayNum_render2 (d : Nat) (h1 : 1 ≤ d) (h2 : d ≤ 31) (rest : PyStr) :
    readDayNum (digitChar (d / 10) :: digitChar (d % 10) :: rest) =
      some (d, rest) := by
  interval_cases d <;> rfl

/-- `%B` reads back each canonical month name, leaving the rest. -/
theorem readFullMonth_name (m : Nat) (h1 : 1 ≤ m) (h2 : m ≤ 12) (rest : PyStr) :
    readFullMonth (monthFullName m ++ rest) = some (m, rest) := by
  interval_cases m <;> rfl

/-- Each month abbreviation is three letters that `%b` maps back to the
month's number. -/
theorem monthAbbr_split (m : Nat) (h1 : 1 ≤ m) (h2 : m ≤ 12) :
    ∃ a b c, monthAbbr m = [a, b, c] ∧ monthOfAbbrev a b c = some m ∧
      a.isDigit = false := by
  interval_cases m <;> exact ⟨_, _, _, rfl, rfl, rfl⟩

/-- Month names contain no whitespace. -/
theorem all_not_ws_monthFullName (m : Nat) (h1 : 1 ≤ m) (h2 : m ≤ 12) :
    ∀ c ∈ monthFullName m, pyWs c = false := by
  interval_cases m <;> decide

/-- Month abbreviations contain no whitespace. -/
theorem all_not_ws_monthAbbr (m : Nat) (h1 : 1 ≤ m) (h2 : m ≤ 12) :
    ∀ c ∈ monthAbbr m, pyWs c = false := by
  interval_cases m <;> decide

/-- The `datetime` constructor accepts any in-range date. -/
theorem mkPyDate_valid (y m d : Nat) (hy : 1 ≤ y) (hd1 : 1 ≤ d)
    (hd2 : d ≤ daysInMonth y m) : mkPyDate y m d = some ⟨y, m, d⟩ := by
  unfold mkPyDate
  rw [if_pos ⟨hy, hd1, hd2⟩]

/-- No month has more than 31 days. -/
theorem daysInMonth_le_31 (y m : Nat) : daysInMonth y m ≤ 31 := by
  unfold daysInMonth
  split
  · split <;> omega
  · split <;> omega

/-- Stepping `matchISO` through successful component reads. -/
theorem matchISO_step (l r1 r2 : PyStr) (y m' d' : Nat)
    (h1 : read4Digits l = some (y, '-' :: r1))
    (h2 : readMonthNum r1 = some (m', '-' :: r2))
    (h3 : readDayNum r2 = some (d', [])) :
    matchISO l = mkPyDate y m' d' := by
  simp only [matchISO, h1, h2, h3]

/-- Stepping `matchDMonY` through successful component reads. -/
theorem matchDMonY_step (l r1 : PyStr) (a b c : Char) (y m' d' : Nat)
    (h1 : readDayNum l = some (d', a :: b :: c :: r1))
    (h2 : monthOfAbbrev a b c = some m')
    (h3 : read4Digits r1 = some (y, [])) :
    matchDMonY l = mkPyDate y m' d' := by
  simp only [matchDMonY, h1, h2, h3]

/-- Stepping `matchLong` through successful component reads. -/
theorem matchLong_step (l r1 r2 r3 r4 : PyStr) (y m' d' : Nat)
    (h1 : readFullMonth l = some (m', r1))
    (h2 : readWs1 r1 = some r2)
    (h3 : readDayNum r2 = some (d', ',' :: r3))
    (h4 : readWs1 r3 = some r4)
    (h5 : read4Digits r4 = some (y, [])) :
    matchLong l = mkPyDate y m' d' := by
  simp only [matchLong, h1, h2, h3, h4, h5]

/-- `parse_date` commits to the first format when `%Y-%m-%d` matches. -/
theorem parse_date_of_matchISO (l : PyStr) (dd : PyDate) (h0 : l.isEmpty = false)
    (h1 : matchISO (pyStrip l) = some dd) : parse_date l = some dd := by
  simp only [parse_date, h0, Bool.false_eq_true, if_false, h1]

/-- `parse_date` falls to the second format only when the first fails. -/
theorem parse_date_of_matchDMonY (l : PyStr) (dd : PyDate) (h0 : l.isEmpty = false)
    (h1 : matchISO (pyStrip l) = none) (h2 : matchDMonY (pyStrip l) = some dd) :
    parse_date l = some dd := by
  simp only [parse_date, h0, Bool.false_eq_true, if_false, h1, h2]

/-- `parse_date` falls to the third format only when the first two fail. -/
theorem parse_date_of_matchLong (l : PyStr) (h0 : l.isEmpty = false)
    (h1 : matchISO (pyStrip l) = none) (h2 : matchDMonY (pyStrip l) = none) :
    parse_date l = matchLong (pyStrip l) := by
  simp only [parse_date, h0, Bool.false_eq_true, if_false, h1, h2]

/-- `dropWhile` stops at a non-matching head. -/
theorem dropWhile_cons_false (p : Char → Bool) (c : Char) (r : PyStr)
    (h : p c = false) : (c :: r).dropWhile p = c :: r := by
  rw [List.dropWhile_cons, h]
  simp

/-- A format-whitespace token consumes one space before a non-space. -/
theorem readWs1_space (rest : PyStr) (h : rest.dropWhile pyWs = rest) :
    readWs1 (' ' :: rest) = some rest := by
  simp only [readWs1]
  rw [if_pos (by rfl : pyWs ' ' = true)]
  rw [h]

/-- `%Y` rejects an input whose head is not a digit. -/
theorem read4Digits_head_not_digit (c : Char) (r : PyStr) (h : c.isDigit = false) :
    read4Digits (c :: r) = none := by
  match r with
  | [] => rfl
  | [c2] => rfl
  | [c2, c3] => rfl
  | c2 :: c3 :: c4 :: rest =>
    simp only [read4Digits, h]
    simp

/-- `%Y-%m-%d` rejects an input whose head is not a digit. -/
theorem matchISO_head_not_digit (c : Char) (r : PyStr) (h : c.isDigit = false) :
    matchISO (c :: r) = none := by
  simp only [matchISO, read4Digits_head_not_digit c r h]

/-- `%d` rejects an input whose head is above `'9'`. -/
theorem readDayNum_gt9 (c : Char) (h : ('9' : Char) < c) (r : PyStr) :
    readDayNum (c :: r) = none := by
  have hc3 : (c = '3') = False := eq_false (by rintro rfl; exact absurd h (by decide))
  have hc0 : (c = '0') = False := eq_false (by rintro rfl; exact absurd h (by decide))
  have hle2 : (c ≤ '2') = False :=
    eq_false (fun hle => absurd (lt_of_lt_of_le h hle) (by decide))
  have hle9 : (c ≤ '9') = False :=
    eq_false (fun hle => absurd (lt_of_lt_of_le h hle) (by decide))
  match r with
  | [] => simp [readDayNum, hle9, hle2, hc3, hc0]
  | c2 :: rest => simp [readDayNum, hle9, hle2, hc3, hc0]

/-- Each month name starts with a non-digit, non-whitespace letter above
`'9'`. -/
theorem monthFullName_head (m : Nat) (h1 : 1 ≤ m) (h2 : m ≤ 12) :
    ∃ hc t, monthFullName m = hc :: t ∧ hc.isDigit = false ∧ pyWs hc = false ∧
      ('9' : Char) < hc := by
  interval_cases m <;> exact ⟨_, _, rfl, rfl, rfl, by decide⟩

/-- `parse_date` recovers any valid date from its `YYYY-MM-DD` rendering. -/
theorem parse_date_renderISO (y m d : Nat) (hy1 : 1 ≤ y) (hy2 : y ≤ 9999)
    (hm1 : 1 ≤ m) (hm2 : m ≤ 12) (hd1 : 1 ≤ d) (hd2 : d ≤ daysInMonth y m) :
    parse_date (renderISO y m d) = some ⟨y, m, d⟩ := by
  have hd31 : d ≤ 31 := le_trans hd2 (daysInMonth_le_31 y m)
  have hne : (renderISO y m d).isEmpty = false := rfl
  have hnw : ∀ c ∈ renderISO y m d, pyWs c = false := by
    unfold renderISO
    exact all_not_ws_append _ _
      (all_not_ws_append _ _ (all_not_ws_render4 y hy2)
        (all_not_ws_cons '-' _ rfl (all_not_ws_render2 m (by omega))))
      (all_not_ws_cons '-' _ rfl (all_not_ws_render2 d (by omega)))
  have hshape : renderISO y m d =
      digitChar (y / 1000) :: digitChar (y / 100 % 10) :: digitChar (y / 10 % 10) ::
        digitChar (y % 10) :: ('-' :: (digitChar (m / 10) :: digitChar (m % 10) ::
          ('-' :: (digitChar (d / 10) :: digitChar (d % 10) :: [])))) := rfl
  have hiso : matchISO (renderISO y m d) = some ⟨y, m, d⟩ := by
    have h1 := read4Digits_render4 y hy2
      ('-' :: (digitChar (m / 10) :: digitChar (m % 10) ::
        ('-' :: (digitChar (d / 10) :: digitChar (d % 10) :: []))))
    have h2 := readMonthNum_render2 m hm1 hm2
      ('-' :: (digitChar (d / 10) :: digitChar (d % 10) :: []))
    have h3 := readDayNum_render2 d hd1 hd31 []
    rw [hshape, matchISO_step _ _ _ _ _ _ h1 h2 h3,
      mkPyDate_valid y m d hy1 hd1 hd2]
  exact parse_date_of_matchISO _ _ hne
    (by rw [pyStrip_all_not_ws _ hnw]; exact hiso)

/-- `parse_date` recovers any valid date from its `DDMonYYYY` rendering,
after the first format fails on it. -/
theorem parse_date_renderDMonY (y m d : Nat) (hy1 : 1 ≤ y) (hy2 : y ≤ 9999)
    (hm1 : 1 ≤ m) (hm2 : m ≤ 12) (hd1 : 1 ≤ d) (hd2 : d ≤ daysInMonth y m) :
    parse_date (renderDMonY y m d) = some ⟨y, m, d⟩ := by
  have hd31 : d ≤ 31 := le_trans hd2 (daysInMonth_le_31 y m)
  obtain ⟨a, b, c, habbr, hmOf, haDig⟩ := monthAbbr_split m hm1 hm2
  have hne : (renderDMonY y m d).isEmpty = false := rfl
  have hnw : ∀ c ∈ renderDMonY y m d, pyWs c = false := by
    unfold renderDMonY
    exact all_not_ws_append _ _
      (all_not_ws_append _ _ (all_not_ws_render2 d (by omega))
        (all_not_ws_monthAbbr m hm1 hm2))
      (all_not_ws_render4 y hy2)
  have hshape : renderDMonY y m d =
      digitChar (d / 10) :: digitChar (d % 10) ::
        (a :: b :: c :: (digitChar (y / 1000) :: digitChar (y / 100 % 10) ::
          digitChar (y / 10 % 10) :: digitChar (y % 10) :: [])) := by
    unfold renderDMonY
    rw [habbr]
    rfl
  have hisoN : matchISO (renderDMonY y m d) = none := by
    rw [hshape]
    have hr4 : read4Digits (digitChar (d / 10) :: digitChar (d % 10) ::
        (a :: b :: c :: (digitChar (y / 1000) :: digitChar (y / 100 % 10) ::
          digitChar (y / 10 % 10) :: digitChar (y % 10) :: []))) = none := by
      simp only [read4Digits, haDig]
      simp
    simp only [matchISO, hr4]
  have hdm : matchDMonY (renderDMonY y m d) = some ⟨y, m, d⟩ := by
    have h1 := readDayNum_render2 d hd1 hd31
      (a :: b :: c :: (digitChar (y / 1000) :: digitChar (y / 100 % 10) ::
        digitChar (y / 10 % 10) :: digitChar (y % 10) :: []))
    have h3 := read4Digits_render4 y hy2 []
    rw [hshape, matchDMonY_step _ _ a b c _ _ _ h1 hmOf h3,
      mkPyDate_valid y m d hy1 hd1 hd2]
  exact parse_date_of_matchDMonY _ _ hne
    (by rw [pyStrip_all_not_ws _ hnw]; exact hisoN)
    (by rw [pyStrip_all_not_ws _ hnw]; exact hdm)

/-- Right-strip is the identity when the last character is not whitespace. -/
theorem pyStripR_last_not_ws (l : PyStr) (e : Char) (h : pyWs e = false) :
    pyStripR (l ++ [e]) = l ++ [e] := by
  unfold pyStripR
  rw [List.reverse_append, List.reverse_singleton, List.singleton_append,
    dropWhile_cons_false pyWs e _ h, List.reverse_cons, List.reverse_reverse]

/-- `strip()` is the identity when both end characters are not whitespace. -/
theorem pyStrip_head_last (c : Char) (mid : PyStr) (e : Char)
    (h1 : pyWs c = false) (h2 : pyWs e = false) :
    pyStrip (c :: (mid ++ [e])) = c :: (mid ++ [e]) := by
  unfold pyStrip
  rw [dropWhile_cons_false pyWs c _ h1]
  rw [show c :: (mid ++ [e]) = (c :: mid) ++ [e] from (List.cons_append c mid [e]).symm]
  exact pyStripR_last_not_ws (c :: mid) e h2

/-- `parse_date` recovers any valid date from its `Month DD, YYYY` rendering,
after the first two formats fail on it. -/
theorem parse_date_renderLong (y m d : Nat) (hy1 : 1 ≤ y) (hy2 : y ≤ 9999)
    (hm1 : 1 ≤ m) (hm2 : m ≤ 12) (hd1 : 1 ≤ d) (hd2 : d ≤ daysInMonth y m) :
    parse_date (renderLong y m d) = some ⟨y, m, d⟩ := by
  have hd31 : d ≤ 31 := le_trans hd2 (daysInMonth_le_31 y m)
  obtain ⟨hc, t, hh, hcDig, hcNws, hcGt⟩ := monthFullName_head m hm1 hm2
  have hshape : renderLong y m d = monthFullName m ++
      (' ' :: (digitChar (d / 10) :: digitChar (d % 10) ::
        (',' :: (' ' :: (digitChar (y / 1000) :: digitChar (y / 100 % 10) ::
          digitChar (y / 10 % 10) :: digitChar (y % 10) :: []))))) := by
    unfold renderLong
    rw [List.append_assoc]
    rfl
  have hne : (renderLong y m d).isEmpty = false := by
    rw [hshape, hh, List.cons_append]
    rfl
  have hstrip : pyStrip (renderLong y m d) = renderLong y m d := by
    conv =>
      lhs
      rw [hshape, hh, List.cons_append]
      rw [show (' ' :: (digitChar (d / 10) :: digitChar (d % 10) ::
          (',' :: (' ' :: (digitChar (y / 1000) :: digitChar (y / 100 % 10) ::
            digitChar (y / 10 % 10) :: digitChar (y % 10) :: []))))) =
        (' ' :: digitChar (d / 10) :: digitChar (d % 10) :: ',' :: ' ' ::
          digitChar (y / 1000) :: digitChar (y / 100 % 10) ::
          digitChar (y / 10 % 10) :: []) ++ [digitChar (y % 10)] from rfl]
      rw [← List.append_assoc]
    rw [pyStrip_head_last hc _ (digitChar (y % 10)) hcNws
      (pyWs_digitChar _ (by omega))]
    rw [List.append_assoc]
    rw [hshape, hh, List.cons_append]
    rfl
  have hisoN : matchISO (renderLong y m d) = none := by
    rw [hshape, hh, List.cons_append]
    exact matchISO_head_not_digit _ _ hcDig
  have hdmN : matchDMonY (renderLong y m d) = none := by
    rw [hshape, hh, List.cons_append]
    simp only [matchDMonY, readDayNum_gt9 hc hcGt]
  have hlong : matchLong (renderLong y m d) = some ⟨y, m, d⟩ := by
    rw [hshape]
    have h1 := readFullMonth_name m hm1 hm2
      (' ' :: (digitChar (d / 10) :: digitChar (d % 10) ::
        (',' :: (' ' :: (digitChar (y / 1000) :: digitChar (y / 100 % 10) ::
          digitChar (y / 10 % 10) :: digitChar (y % 10) :: [])))))
    have h2 : readWs1 (' ' :: (digitChar (d / 10) :: digitChar (d % 10) ::
        (',' :: (' ' :: (digitChar (y / 1000) :: digitChar (y / 100 % 10) ::
          digitChar (y / 10 % 10) :: digitChar (y % 10) :: []))))) =
        some (digitChar (d / 10) :: digitChar (d % 10) ::
          (',' :: (' ' :: (digitChar (y / 1000) :: digitChar (y / 100 % 10) ::
            digitChar (y / 10 % 10) :: digitChar (y % 10) :: [])))) :=
      readWs1_space _ (dropWhile_cons_false pyWs _ _ (pyWs_digitChar _ (by omega)))
    have h3 := readDayNum_render2 d hd1 hd31
      (',' :: (' ' :: (digitChar (y / 1000) :: digitChar (y / 100 % 10) ::
        digitChar (y / 10 % 10) :: digitChar (y % 10) :: [])))
    have h4 : readWs1 (' ' :: (digitChar (y / 1000) :: digitChar (y / 100 % 10) ::
        digitChar (y / 10 % 10) :: digitChar (y % 10) :: [])) =
        some (digitChar (y / 1000) :: digitChar (y / 100 % 10) ::
          digitChar (y / 10 % 10) :: digitChar (y % 10) :: []) :=
      readWs1_space _ (dropWhile_cons_false pyWs _ _ (pyWs_digitChar _ (by omega)))
    have h5 := read4Digits_render4 y hy2 []
    rw [matchLong_step _ _ _ _ _ _ _ _ h1 h2 h3 h4 h5,
      mkPyDate_valid y m d hy1 hd1 hd2]
  rw [parse_date_of_matchLong _ hne
    (by rw [hstrip]; exact hisoN)
    (by rw [hstrip]; exact hdmN)]
  rw [hstrip]
  exact hlong

/-- C9: `parse_date` tries `YYYY-MM-DD`, `DDMonYYYY` and `Month DD, YYYY` in
that order with the first successful match winning; every valid calendar date
is recovered literally from each of the three renderings; the empty string and
unsupported inputs (such as `garbage` or the non-date `2024-02-30`) give
`None`; the embedded function is total, so no input raises. -/
theorem parse_date_spec (y m d : Nat) (hy1 : 1 ≤ y) (hy2 : y ≤ 9999)
    (hm1 : 1 ≤ m) (hm2 : m ≤ 12) (hd1 : 1 ≤ d) (hd2 : d ≤ daysInMonth y m) :
    parse_date (renderISO y m d) = some ⟨y, m, d⟩ ∧
    parse_date (renderDMonY y m d) = some ⟨y, m, d⟩ ∧
    parse_date (renderLong y m d) = some ⟨y, m, d⟩ ∧
    parse_date [] = none ∧
    (∀ l dd, l.isEmpty = false → matchISO (pyStrip l) = some dd →
      parse_date l = some dd) ∧
    (∀ l dd, l.isEmpty = false → matchISO (pyStrip l) = none →
      matchDMonY (pyStrip l) = some dd → parse_date l = some dd) ∧
    (∀ l, l.isEmpty = false → matchISO (pyStrip l) = none →
      matchDMonY (pyStrip l) = none → parse_date l = matchLong (pyStrip l)) ∧
    parse_date (lit "garbage") = none ∧
    parse_date (lit "2024-02-30") = none :=
  ⟨parse_date_renderISO y m d hy1 hy2 hm1 hm2 hd1 hd2,
   parse_date_renderDMonY y m d hy1 hy2 hm1 hm2 hd1 hd2,
   parse_date_renderLong y m d hy1 hy2 hm1 hm2 hd1 hd2,
   rfl,
   parse_date_of_matchISO,
   parse_date_of_matchDMonY,
   parse_date_of_matchLong,
   by decide,
   by decide⟩

/-- C9 witness at the specification's example date 2024-01-20. -/
theorem parse_date_spec_witness :
    (renderISO 2024 1 20 = lit "2024-01-20" ∧
     renderDMonY 2024 1 20 = lit "20Jan2024" ∧
     renderLong 2024 1 20 = lit "January 20, 2024") ∧
    parse_date (lit "2024-01-20") = some ⟨2024, 1, 20⟩ ∧
    parse_date (lit "20Jan2024") = some ⟨2024, 1, 20⟩ ∧
    parse_date (lit "January 20, 2024") = some ⟨2024, 1, 20⟩ := by
  have h := parse_date_spec 2024 1 20 (by decide) (by decide) (by decide)
    (by decide) (by decide) (by decide)
  exact ⟨⟨rfl, rfl, rfl⟩, h.1, h.2.1, h.2.2.1⟩

end GbcCe
